import Mathlib

/-!
# The relationship validation engine of meshery-mcp

A shallow embedding of `internal/validate.go` (`ValidateRelationship`, `selectorMsg`,
`itoa`, `findClosestKind`, `levenshtein`) and of `internal/client.go`
(`GetComponentKinds`), followed by the properties proved about them.

Conventions of the embedding:

* a Go `string` is a Lean `String`; where the code looks at bytes (`len`, indexing,
  `strings.HasPrefix`) the embedding goes through `bytes`, the UTF-8 bytes of the string;
* a Go `int` that counts or indexes is a `Nat`; the one `int` that takes the value `-1`
  (`bestDist`) is an `Int`;
* a nil pointer is `none`; a slice is a `List` (a nil slice is the empty list);
* what the code obtains from outside the repository (the JSON decoder, `strings.ToLower`,
  the order of a `range` loop over a map, the HTTP exchange) is an explicit parameter.
-/

/-- Mathlib's Levenshtein distance with unit costs (deletion, insertion and substitution of
a different element cost one): the reference that the function of the source is compared
with. Here `levenshtein` is Mathlib's function. -/
def Meshery.unitCostLevenshtein (a b : List Nat) : Nat :=
  levenshtein Levenshtein.defaultCost a b

namespace Meshery

/-! ## Strings -/

/-- The bytes of a Go string, each a number below 256. -/
def bytes (s : String) : List Nat :=
  s.toUTF8.data.toList.map UInt8.toNat

/-- Go's builtin `len` on a string: the number of its bytes. -/
def len (s : String) : Nat :=
  (bytes s).length

/-- Go's `strings.HasPrefix s p`: the bytes of `s` start with the bytes of `p`. -/
def HasPrefix (s p : String) : Bool :=
  (bytes p).isPrefixOf (bytes s)

/-- The lowering of ASCII letters, on which Go's `strings.ToLower` and this function agree
for every string made of ASCII characters only. It is used to evaluate the code on
concrete ASCII inputs. -/
def asciiToLower (s : String) : String :=
  ⟨s.data.map Char.toLower⟩

/-! ## Data model (the fields of the schema types that the validator reads) -/

/-- The `model` reference of a definition or of an endpoint. -/
structure ModelReference where
  Name : String
deriving DecidableEq, Repr

/-- The `patch` of an endpoint; `PatchStrategy` is a `*string` in the Go type. -/
structure Patch where
  PatchStrategy : Option String
deriving DecidableEq, Repr

/-- An endpoint: an entry of a selector's `from` or `to` list. -/
structure SelectorItem where
  Kind : Option String
  Model : Option ModelReference
  Patch : Option Patch
deriving DecidableEq, Repr

/-- The `allow` part of a selector. -/
structure Selector where
  From : List SelectorItem
  To : List SelectorItem
deriving DecidableEq, Repr

/-- One entry of `selectors`. -/
structure SelectorSetItem where
  Allow : Selector
deriving DecidableEq, Repr

/-- The decoded relationship definition; `Selectors` is a pointer to a slice in Go. -/
structure RelationshipDefinition where
  SchemaVersion : String
  Kind : String
  SubType : String
  Model : ModelReference
  Selectors : Option (List SelectorSetItem)
deriving DecidableEq, Repr

/-- The constant `v1alpha3.RelationshipSchemaVersion` of the schemas package (the value
that `relationshipSkeleton` in `tools.go` carries). -/
def RelationshipSchemaVersion : String := "relationships.meshery.io/v1alpha3"

/-- The constant `relationship.Edge`. -/
def Edge : String := "edge"

/-- The constant `relationship.Hierarchical`. -/
def Hierarchical : String := "hierarchical"

/-- The constant `relationship.Sibling`. -/
def Sibling : String := "sibling"

/-- ValidationError describes a single validation problem; an omitted `Suggestion` is the
empty string. -/
structure ValidationError where
  Field : String
  Message : String
  Suggestion : String
deriving DecidableEq, Repr

/-- ValidationResult holds the outcome of relationship validation. -/
structure ValidationResult where
  Valid : Bool
  Errors : List ValidationError
  Warnings : List ValidationError
deriving DecidableEq, Repr

/-! ## The catalog client (`client.go`) -/

/-- The decoded body of the components endpoint; every entry of `Components` is reduced to
its `Component.Kind`, the only field of an entry the Go type declares. -/
structure componentsResponse where
  TotalCount : Int
  Components : List String
deriving DecidableEq, Repr

/-- What the HTTP exchange of `GetComponentKinds` can come to. -/
inductive HTTPReply where
  /-- `c.HTTPClient.Get` returned an error. -/
  | getError (err : String)
  /-- A response whose status code is not 200, with its body. -/
  | badStatus (status : Nat) (body : String)
  /-- A response with status 200 whose body does not decode. -/
  | decodeError (err : String)
  /-- A response with status 200 and the decoded body. -/
  | decoded (result : componentsResponse)
deriving DecidableEq, Repr

/-- MesheryClient wraps HTTP calls to the Meshery server API; `HTTPClient` maps the
requested URL to the outcome of the exchange. -/
structure MesheryClient where
  BaseURL : String
  HTTPClient : String → HTTPReply

/-- Go leaves the order of a `range` loop over a map unspecified: `ro n keys` is the order
in which the `n`-th such loop of a run visits a map whose keys are `keys`. -/
abbrev RangeOrder := Nat → List String → List String

/-- Every `range` loop visits each key of the map exactly once. -/
def RangeOrder.Valid (ro : RangeOrder) : Prop :=
  ∀ n keys, (ro n keys).Perm keys

/-- The statement `m[k] = true` on a `map[string]bool`, the map being given by the list
of its keys. -/
def mapSet (m : List String) (k : String) : List String :=
  if k ∈ m then m else m ++ [k]

/-- The order `sort.Strings` sorts by. Go compares strings byte by byte, which on UTF-8
text is the lexicographic order of the code points. -/
def stringLE (a b : String) : Prop :=
  a.data ≤ b.data

instance stringLE.decidable (a b : String) : Decidable (stringLE a b) := by
  unfold stringLE
  exact inferInstance

instance stringLE.isTotal : IsTotal String stringLE :=
  ⟨fun a b => le_total a.data b.data⟩

instance stringLE.isTrans : IsTrans String stringLE :=
  ⟨fun a b c h1 h2 => @le_trans (List Char) _ a.data b.data c.data h1 h2⟩

instance stringLE.isAntisymm : IsAntisymm String stringLE :=
  ⟨fun a b h1 h2 => String.ext (@le_antisymm (List Char) _ a.data b.data h1 h2)⟩

/-- Go's `sort.Strings`. -/
def sortStrings (l : List String) : List String :=
  l.insertionSort stringLE

/-- GetComponentKinds fetches all component kinds for the given model from Meshery.
Returns deduplicated, sorted kind names and the total count. `order` is the order in
which the `range` loop over `seen` visits the keys. -/
def GetComponentKinds (order : List String → List String) (c : MesheryClient)
    (modelName : String) : Except String (List String × Int) :=
  let url := c.BaseURL ++ "/api/meshmodels/models/" ++ modelName ++
    "/components?trim=true&pagesize=all"
  match c.HTTPClient url with
  | .getError err => .error ("cannot reach Meshery at " ++ c.BaseURL ++ ": " ++ err)
  | .badStatus status body =>
      .error ("Meshery returned status " ++ toString status ++ ": " ++ body)
  | .decodeError err => .error ("failed to decode response: " ++ err)
  | .decoded result =>
      let seen := result.Components.foldl
        (fun seen kind => if kind != "" then mapSet seen kind else seen) []
      let kinds := (order seen).foldl (fun kinds k => kinds ++ [k]) []
      .ok (sortStrings kinds, result.TotalCount)

/-! ## The fuzzy matcher (`validate.go`) -/

/-- The inner loop of `levenshtein` for row `i`: `curr[0] = i`, then for `j = 1 .. lb`
`curr[j] = min(curr[j-1]+1, min(prev[j]+1, prev[j-1]+cost))`; `ai` is the byte `a[i-1]`. -/
def levenshteinRow (ai : Nat) (i : Nat) (b : List Nat) (prev curr : List Nat) : List Nat :=
  (List.range b.length).foldl
    (fun curr j0 =>
      let j := j0 + 1
      let cost := if ai == b.getD (j - 1) 0 then 0 else 1
      curr.set j (min (curr.getD (j - 1) 0 + 1)
        (min (prev.getD j 0 + 1) (prev.getD (j - 1) 0 + cost))))
    (curr.set 0 i)

/-- The function `levenshtein` of the source, on the bytes of its two arguments: two rows
of length `lb+1`, swapped after every row. -/
def levenshtein (a b : List Nat) : Nat :=
  let la := a.length
  let lb := b.length
  if la == 0 then lb
  else if lb == 0 then la
  else
    let prev := (List.range (lb + 1)).foldl (fun prev j => prev.set j j)
      (List.replicate (lb + 1) 0)
    let curr := List.replicate (lb + 1) 0
    let rows := (List.range la).foldl
      (fun (rows : List Nat × List Nat) i0 =>
        let i := i0 + 1
        let curr := levenshteinRow (a.getD (i - 1) 0) i b rows.1 rows.2
        (curr, rows.1))
      (prev, curr)
    rows.1.getD lb 0

/-- A `map[string]bool` used as a set of kinds: `keys` are its keys (the code only ever
stores `true`), and `order n` is the order in which the `n`-th `range` loop still to come
visits them. -/
structure KindSet where
  keys : List String
  order : Nat → List String

/-- The lookup `kindSet[k]`. -/
def KindSet.contains (m : KindSet) (k : String) : Bool :=
  decide (k ∈ m.keys)

/-- The map after `c` of its `range` loops have run. -/
def KindSet.skip (m : KindSet) (c : Nat) : KindSet :=
  { m with order := fun n => m.order (c + n) }

/-- Every `range` loop over the map visits each of its keys exactly once. -/
def KindSet.WellFormed (m : KindSet) : Prop :=
  m.keys.Nodup ∧ ∀ n, (m.order n).Perm m.keys

/-- One step of the third loop of `findClosestKind`. -/
def closestStep (ToLower : String → String) (lower : String) (acc : String × Int)
    (k : String) : String × Int :=
  let d : Int := (levenshtein (bytes lower) (bytes (ToLower k)) : Nat)
  if acc.2 < 0 || d < acc.2 then (k, d) else acc

/-- findClosestKind finds the closest matching kind from the set using case-insensitive
match, prefix match, then Levenshtein distance. Its three loops use `kinds.order 0`,
`kinds.order 1` and `kinds.order 2`. -/
def findClosestKind (ToLower : String → String) (target : String) (kinds : KindSet) :
    String :=
  let lower := ToLower target
  match (kinds.order 0).find? (fun k => ToLower k == lower) with
  | some k => k
  | none =>
    match (kinds.order 1).find?
        (fun k => HasPrefix (ToLower k) lower || HasPrefix lower (ToLower k)) with
    | some k => k
    | none =>
      let r := (kinds.order 2).foldl (closestStep ToLower lower) ("", (-1 : Int))
      if r.2 >= 0 && r.2 <= ((len target / 2 + 1 : Nat) : Int) then r.1 else ""

/-! ## The validator (`validate.go`) -/

/-- The loop of `itoa`: while `i > 0`, put the digit `i % 10` in front of `s` and divide
`i` by ten. The first argument bounds the number of rounds. -/
def itoaLoop : Nat → Nat → String → String
  | 0, _, s => s
  | fuel + 1, i, s =>
    if i > 0 then itoaLoop fuel (i / 10) (String.singleton (Char.ofNat (48 + i % 10)) ++ s)
    else s

/-- The function `itoa` of the source, for the non-negative arguments it is called with
(indexes of a slice). A round divides a positive `i` by ten, so `i` rounds are enough. -/
def itoa (i : Nat) : String :=
  if i == 0 then "0" else itoaLoop i i ""

/-- The function `selectorMsg` of the source. -/
def selectorMsg (i : Nat) (msg : String) : String :=
  "selector[" ++ itoa i ++ "]: " ++ msg

/-- The test `x.Patch != nil && (x.Patch.PatchStrategy == nil || *x.Patch.PatchStrategy == "")`. -/
def patchStrategyMissing (item : SelectorItem) : Bool :=
  match item.Patch with
  | none => false
  | some p => p.PatchStrategy == none || p.PatchStrategy == some ""

/-- The two patch loops of phase 1 over the `from` and the `to` entries of selector `i`;
`msg` is the literal the loop passes to `selectorMsg`. -/
def checkPatches (i : Nat) (msg : String) (items : List SelectorItem)
    (result : ValidationResult) : ValidationResult :=
  items.foldl
    (fun result item =>
      if patchStrategyMissing item then
        { result with
          Valid := false
          Errors := result.Errors ++
            [{ Field := "selectors", Message := selectorMsg i msg, Suggestion := "" }] }
      else result)
    result

/-- The body of the loop `for i, sel := range *relDef.Selectors` of phase 1. -/
def checkSelector (i : Nat) (sel : SelectorSetItem) (result : ValidationResult) :
    ValidationResult :=
  let result :=
    if sel.Allow.From.length == 0 && sel.Allow.To.length == 0 then
      { result with
        Valid := false
        Errors := result.Errors ++
          [{ Field := "selectors"
             Message := selectorMsg i "must have at least one 'from' or 'to' entry"
             Suggestion := "" }] }
    else result
  let result := checkPatches i "from patch is set but patchStrategy is missing"
    sel.Allow.From result
  checkPatches i "to patch is set but patchStrategy is missing" sel.Allow.To result

/-- The loop `for i, sel := range *relDef.Selectors` of phase 1, from index `i` on. -/
def checkSelectors : Nat → List SelectorSetItem → ValidationResult → ValidationResult
  | _, [], result => result
  | i, sel :: rest, result => checkSelectors (i + 1) rest (checkSelector i sel result)

/-- Phase 1 of `ValidateRelationship`: the schema checks, from the decoded definition to
the test that guards phase 2. -/
def phase1 (relDef : RelationshipDefinition) : ValidationResult :=
  let result : ValidationResult := { Valid := true, Errors := [], Warnings := [] }
  let result :=
    if relDef.SchemaVersion != RelationshipSchemaVersion then
      { result with
        Valid := false
        Errors := result.Errors ++
          [{ Field := "schemaVersion"
             Message := "invalid schemaVersion: " ++ relDef.SchemaVersion
             Suggestion := RelationshipSchemaVersion }] }
    else result
  let result :=
    if relDef.Kind == Edge || relDef.Kind == Hierarchical || relDef.Kind == Sibling then
      result
    else
      { result with
        Valid := false
        Errors := result.Errors ++
          [{ Field := "kind"
             Message := "invalid kind: " ++ relDef.Kind
             Suggestion := "must be one of: edge, hierarchical, sibling" }] }
  let result :=
    if relDef.Model.Name == "" then
      { result with
        Valid := false
        Errors := result.Errors ++
          [{ Field := "model.name", Message := "model name is required", Suggestion := "" }] }
    else result
  let result :=
    match relDef.Selectors with
    | none =>
      { result with
        Valid := false
        Errors := result.Errors ++
          [{ Field := "selectors"
             Message := "at least one selector is required"
             Suggestion := "" }] }
    | some sels =>
      if sels.length == 0 then
        { result with
          Valid := false
          Errors := result.Errors ++
            [{ Field := "selectors"
               Message := "at least one selector is required"
               Suggestion := "" }] }
      else checkSelectors 0 sels result
  if relDef.SubType == "" then
    { result with
      Warnings := result.Warnings ++
        [{ Field := "subType"
           Message := "subType is empty; consider setting it for better classification"
           Suggestion := "" }] }
  else result

/-- The test `x.Model != nil && x.Model.Name != "" && x.Model.Name != modelName`. -/
def otherModel (item : SelectorItem) (modelName : String) : Bool :=
  match item.Model with
  | none => false
  | some m => m.Name != "" && m.Name != modelName

/-- The body of the two endpoint loops of phase 2; `field` is the literal of the loop
(`selectors.allow.from.kind` or `selectors.allow.to.kind`). The state is the result and
the kind set with the `range` orders still to come: a call of `findClosestKind` runs at
most three `range` loops over the set. -/
def crossCheck (ToLower : String → String) (modelName field : String)
    (st : ValidationResult × KindSet) (item : SelectorItem) : ValidationResult × KindSet :=
  match item.Kind with
  | none => st
  | some kind =>
    if kind == "" || kind == "*" then st
    else if otherModel item modelName then st
    else if !st.2.contains kind then
      let suggestion := findClosestKind ToLower kind st.2
      ({ st.1 with
         Valid := false
         Errors := st.1.Errors ++
           [{ Field := field
              Message := "component kind not found in model: " ++ kind
              Suggestion := suggestion }] },
       st.2.skip 3)
    else st

/-- The body of the loop `for _, sel := range *relDef.Selectors` of phase 2. -/
def crossCheckSelector (ToLower : String → String) (modelName : String)
    (st : ValidationResult × KindSet) (sel : SelectorSetItem) : ValidationResult × KindSet :=
  let st := sel.Allow.From.foldl (crossCheck ToLower modelName "selectors.allow.from.kind") st
  sel.Allow.To.foldl (crossCheck ToLower modelName "selectors.allow.to.kind") st

/-- What `ValidateRelationship` takes from outside the repository: the decoder
`encoding.Unmarshal` into a `RelationshipDefinition` (an error carries its text),
`strings.ToLower`, and the order of the `range` loops over maps. -/
structure Env where
  Unmarshal : String → Except String RelationshipDefinition
  ToLower : String → String
  rangeOrder : RangeOrder

/-- The kind set that phase 2 builds from the fetched kinds; the first `range` loop of a
run is the one inside `GetComponentKinds`. -/
def makeKindSet (ro : RangeOrder) (kinds : List String) : KindSet :=
  let keys := kinds.foldl mapSet []
  { keys := keys, order := fun n => ro (n + 1) keys }

/-- ValidateRelationship performs 2-phase validation on a relationship JSON string.
Phase 1: schema checks (always runs).
Phase 2: component cross-reference (runs only if client and modelName are provided). -/
def ValidateRelationship (env : Env) (jsonStr : String) (client : Option MesheryClient)
    (modelName : String) : ValidationResult :=
  let result : ValidationResult := { Valid := true, Errors := [], Warnings := [] }
  match env.Unmarshal jsonStr with
  | .error err =>
    { result with
      Valid := false
      Errors := result.Errors ++
        [{ Field := "root"
           Message := "failed to parse relationship JSON: " ++ err
           Suggestion := "" }] }
  | .ok relDef =>
    let result := phase1 relDef
    match client with
    | none => result
    | some c =>
      if !result.Valid || modelName == "" then result
      else
        match GetComponentKinds (env.rangeOrder 0) c modelName with
        | .error err =>
          { result with
            Warnings := result.Warnings ++
              [{ Field := "components"
                 Message := "could not fetch components for cross-reference: " ++ err
                 Suggestion := "" }] }
        | .ok (kinds, _) =>
          let kindSet := makeKindSet env.rangeOrder kinds
          match relDef.Selectors with
          | none => result
          | some sels =>
            (sels.foldl (crossCheckSelector env.ToLower modelName) (result, kindSet)).1

/-! ## What each part of the validator adds to a result

The functions of this section are not in the source: they name the errors and warnings
that a part of `ValidateRelationship` appends, so that the theorems can speak of them. -/

/-- A result to which the errors `es` have been appended, `Valid` being cleared when there
is at least one. -/
def extend (r : ValidationResult) (es : List ValidationError) : ValidationResult :=
  { Valid := r.Valid && es.isEmpty, Errors := r.Errors ++ es, Warnings := r.Warnings }

/-- The errors of one patch loop: one per entry whose patch has no strategy. -/
def patchErrors (i : Nat) (msg : String) (items : List SelectorItem) :
    List ValidationError :=
  (items.filter patchStrategyMissing).map
    (fun _ => { Field := "selectors", Message := selectorMsg i msg, Suggestion := "" })

/-- The errors of selector `i`. -/
def selectorErrors (i : Nat) (sel : SelectorSetItem) : List ValidationError :=
  (if sel.Allow.From.length == 0 && sel.Allow.To.length == 0 then
    [{ Field := "selectors"
       Message := selectorMsg i "must have at least one 'from' or 'to' entry"
       Suggestion := "" }]
   else []) ++
  (patchErrors i "from patch is set but patchStrategy is missing" sel.Allow.From ++
   patchErrors i "to patch is set but patchStrategy is missing" sel.Allow.To)

/-- The errors of the selectors `sels`, the first of which has index `i`. -/
def selectorsErrors : Nat → List SelectorSetItem → List ValidationError
  | _, [] => []
  | i, sel :: rest => selectorErrors i sel ++ selectorsErrors (i + 1) rest

/-- The error of the schema version check. -/
def schemaVersionErrors (relDef : RelationshipDefinition) : List ValidationError :=
  if relDef.SchemaVersion != RelationshipSchemaVersion then
    [{ Field := "schemaVersion"
       Message := "invalid schemaVersion: " ++ relDef.SchemaVersion
       Suggestion := RelationshipSchemaVersion }]
  else []

/-- The error of the kind check. -/
def kindErrors (relDef : RelationshipDefinition) : List ValidationError :=
  if relDef.Kind == Edge || relDef.Kind == Hierarchical || relDef.Kind == Sibling then []
  else
    [{ Field := "kind"
       Message := "invalid kind: " ++ relDef.Kind
       Suggestion := "must be one of: edge, hierarchical, sibling" }]

/-- The error of the model name check. -/
def modelNameErrors (relDef : RelationshipDefinition) : List ValidationError :=
  if relDef.Model.Name == "" then
    [{ Field := "model.name", Message := "model name is required", Suggestion := "" }]
  else []

/-- The errors of the selector checks. -/
def selectorCheckErrors (relDef : RelationshipDefinition) : List ValidationError :=
  match relDef.Selectors with
  | none =>
    [{ Field := "selectors", Message := "at least one selector is required", Suggestion := "" }]
  | some sels =>
    if sels.length == 0 then
      [{ Field := "selectors", Message := "at least one selector is required", Suggestion := "" }]
    else selectorsErrors 0 sels

/-- The errors of phase 1, in the order the checks run. -/
def phase1Errors (relDef : RelationshipDefinition) : List ValidationError :=
  schemaVersionErrors relDef ++ (kindErrors relDef ++
    (modelNameErrors relDef ++ selectorCheckErrors relDef))

/-- The warnings of phase 1. -/
def phase1Warnings (relDef : RelationshipDefinition) : List ValidationError :=
  if relDef.SubType == "" then
    [{ Field := "subType"
       Message := "subType is empty; consider setting it for better classification"
       Suggestion := "" }]
  else []

/-- An endpoint that phase 2 reports, in the words of the specification: its kind is a
named kind (not absent, not empty, not `*`), its model is absent, empty or the model
name, and its kind is not among the known kinds. -/
def isMissing (kinds : List String) (modelName : String) (item : SelectorItem) : Bool :=
  (match item.Kind with
    | none => false
    | some kind => kind != "" && kind != "*" && !decide (kind ∈ kinds)) &&
  (match item.Model with
    | none => true
    | some m => m.Name == "" || m.Name == modelName)

/-- The endpoints of the selectors in the order phase 2 visits them, each with the field
its loop reports: for every selector the `from` entries, then the `to` entries. -/
def endpoints : List SelectorSetItem → List (String × SelectorItem)
  | [] => []
  | sel :: rest =>
    (sel.Allow.From.map (fun item => ("selectors.allow.from.kind", item)) ++
      sel.Allow.To.map (fun item => ("selectors.allow.to.kind", item))) ++ endpoints rest

/-- The field and the message of an error. -/
def fieldMessage (e : ValidationError) : String × String :=
  (e.Field, e.Message)

/-- The field and the message of the error that phase 2 reports for an endpoint. -/
def missingReport (p : String × SelectorItem) : String × String :=
  (p.1, "component kind not found in model: " ++ p.2.Kind.getD "")

/-- The messages that only the two selector presence checks produce. -/
def presenceMessage (m : String) : Prop :=
  m = "at least one selector is required" ∨
    ∃ i, m = selectorMsg i "must have at least one 'from' or 'to' entry"

/-- A patch-consistency error of selector `i`: its message is the one that the `from`
loop or the `to` loop of that selector produces. -/
def isPatchError (i : Nat) (e : ValidationError) : Bool :=
  e.Message == selectorMsg i "from patch is set but patchStrategy is missing" ||
    e.Message == selectorMsg i "to patch is set but patchStrategy is missing"

/-- The number of endpoints of a selector that have a patch without a strategy. -/
def patchlessEndpoints (sel : SelectorSetItem) : Nat :=
  (sel.Allow.From.filter patchStrategyMissing).length +
    (sel.Allow.To.filter patchStrategyMissing).length

/-- The decimal digits of `i`, most significant first, as characters; `0` is `"0"`. -/
def decimal (i : Nat) : List Char :=
  if i = 0 then ['0'] else (Nat.digits 10 i).reverse.map (fun d => Char.ofNat (48 + d))

/-- Rule 1 of the matcher: the lowercase form of the kind is that of the target. -/
def exactMatch (ToLower : String → String) (target k : String) : Bool :=
  ToLower k == ToLower target

/-- Rule 2 of the matcher: in lowercase, the target is a prefix of the kind or the kind
a prefix of the target. -/
def prefixMatch (ToLower : String → String) (target k : String) : Bool :=
  HasPrefix (ToLower k) (ToLower target) || HasPrefix (ToLower target) (ToLower k)

/-- The distance of rule 3: what `levenshtein` returns on the two lowercase forms. -/
def distance (ToLower : String → String) (target k : String) : Nat :=
  levenshtein (bytes (ToLower target)) (bytes (ToLower k))

/-- The known kind `k` qualifies for `target` under the rule that decides: rule 1 if some
known kind matches exactly; else rule 2 if some known kind matches by prefix; else rule 3,
for which `k` must be at the least distance and that distance within
`len(target)/2 + 1`. -/
def Qualifies (ToLower : String → String) (target : String) (keys : List String)
    (k : String) : Prop :=
  k ∈ keys ∧
  (exactMatch ToLower target k = true ∨
   ((∀ k' ∈ keys, exactMatch ToLower target k' = false) ∧
      prefixMatch ToLower target k = true) ∨
   ((∀ k' ∈ keys, exactMatch ToLower target k' = false) ∧
      (∀ k' ∈ keys, prefixMatch ToLower target k' = false) ∧
      (∀ k' ∈ keys, distance ToLower target k ≤ distance ToLower target k') ∧
      distance ToLower target k ≤ len target / 2 + 1))

instance Qualifies.decidable (ToLower : String → String) (target : String)
    (keys : List String) (k : String) : Decidable (Qualifies ToLower target keys k) := by
  unfold Qualifies
  exact inferInstance

/-! ## Example inputs

The inputs on which the theorems with hypotheses are instantiated. -/

/-- A definition text that passes phase 1; its `from` endpoint misspells `Deployment`. -/
def exampleJSON : String :=
  "\x7b\"schemaVersion\":\"relationships.meshery.io/v1alpha3\",\"kind\":\"edge\"," ++
  "\"subType\":\"network\",\"model\":\x7b\"name\":\"kubernetes\"\x7d," ++
  "\"selectors\":[\x7b\"allow\":\x7b\"from\":[\x7b\"kind\":\"Depolyment\"\x7d]," ++
  "\"to\":[\x7b\"kind\":\"Service\"\x7d," ++
  "\x7b\"kind\":\"Pod\",\"model\":\x7b\"name\":\"kubernetes\"\x7d\x7d," ++
  "\x7b\"kind\":\"Bucket\",\"model\":\x7b\"name\":\"aws-s3\"\x7d\x7d," ++
  "\x7b\"kind\":\"*\"\x7d]\x7d\x7d]\x7d"

/-- The definition that `exampleJSON` decodes to. -/
def exampleDefinition : RelationshipDefinition :=
  { SchemaVersion := "relationships.meshery.io/v1alpha3"
    Kind := "edge"
    SubType := "network"
    Model := { Name := "kubernetes" }
    Selectors := some
      [{ Allow :=
          { From := [{ Kind := some "Depolyment", Model := none, Patch := none }]
            To :=
              [{ Kind := some "Service", Model := none, Patch := none },
               { Kind := some "Pod", Model := some { Name := "kubernetes" }, Patch := none },
               { Kind := some "Bucket", Model := some { Name := "aws-s3" }, Patch := none },
               { Kind := some "*", Model := none, Patch := none }] } }] }

/-- A definition text with two selectors; the second has a `from` entry whose patch has
no strategy and a `to` entry whose patch has an empty strategy. The `subType` is empty. -/
def patchJSON : String :=
  "\x7b\"schemaVersion\":\"relationships.meshery.io/v1alpha3\",\"kind\":\"hierarchical\"," ++
  "\"subType\":\"\",\"model\":\x7b\"name\":\"kubernetes\"\x7d," ++
  "\"selectors\":[\x7b\"allow\":\x7b\"from\":[\x7b\"kind\":\"Pod\"\x7d],\"to\":[]\x7d\x7d," ++
  "\x7b\"allow\":\x7b\"from\":[\x7b\"kind\":\"Pod\",\"patch\":\x7b\x7d\x7d]," ++
  "\"to\":[\x7b\"kind\":\"Node\",\"patch\":\x7b\"patchStrategy\":\"\"\x7d\x7d," ++
  "\x7b\"kind\":\"Node\",\"patch\":\x7b\"patchStrategy\":\"replace\"\x7d\x7d]\x7d\x7d]\x7d"

/-- The definition that `patchJSON` decodes to. -/
def patchDefinition : RelationshipDefinition :=
  { SchemaVersion := "relationships.meshery.io/v1alpha3"
    Kind := "hierarchical"
    SubType := ""
    Model := { Name := "kubernetes" }
    Selectors := some
      [{ Allow :=
          { From := [{ Kind := some "Pod", Model := none, Patch := none }]
            To := [] } },
       { Allow :=
          { From := [{ Kind := some "Pod", Model := none
                       Patch := some { PatchStrategy := none } }]
            To :=
              [{ Kind := some "Node", Model := none
                 Patch := some { PatchStrategy := some "" } },
               { Kind := some "Node", Model := none
                 Patch := some { PatchStrategy := some "replace" } }] } }] }

/-- A definition text with a single selector, whose `from` has one entry and whose `to`
is empty. -/
def oneSidedJSON : String :=
  "\x7b\"schemaVersion\":\"relationships.meshery.io/v1alpha3\",\"kind\":\"sibling\"," ++
  "\"subType\":\"matchlabels\",\"model\":\x7b\"name\":\"kubernetes\"\x7d," ++
  "\"selectors\":[\x7b\"allow\":\x7b\"from\":[\x7b\"kind\":\"Pod\"\x7d],\"to\":[]\x7d\x7d]\x7d"

/-- The definition that `oneSidedJSON` decodes to. -/
def oneSidedDefinition : RelationshipDefinition :=
  { SchemaVersion := "relationships.meshery.io/v1alpha3"
    Kind := "sibling"
    SubType := "matchlabels"
    Model := { Name := "kubernetes" }
    Selectors := some
      [{ Allow := { From := [{ Kind := some "Pod", Model := none, Patch := none }]
                    To := [] } }] }

/-- A definition text whose `from` endpoint names the kind `Serv`. -/
def ambiguousJSON : String :=
  "\x7b\"schemaVersion\":\"relationships.meshery.io/v1alpha3\",\"kind\":\"edge\"," ++
  "\"subType\":\"network\",\"model\":\x7b\"name\":\"kubernetes\"\x7d," ++
  "\"selectors\":[\x7b\"allow\":\x7b\"from\":[\x7b\"kind\":\"Serv\"\x7d]," ++
  "\"to\":[\x7b\"kind\":\"Pod\"\x7d]\x7d\x7d]\x7d"

/-- The definition that `ambiguousJSON` decodes to. -/
def ambiguousDefinition : RelationshipDefinition :=
  { SchemaVersion := "relationships.meshery.io/v1alpha3"
    Kind := "edge"
    SubType := "network"
    Model := { Name := "kubernetes" }
    Selectors := some
      [{ Allow := { From := [{ Kind := some "Serv", Model := none, Patch := none }]
                    To := [{ Kind := some "Pod", Model := none, Patch := none }] } }] }

/-- The definition that the text `\x7b\x7d` decodes to: every field has its zero value. -/
def zeroDefinition : RelationshipDefinition :=
  { SchemaVersion := "", Kind := "", SubType := "", Model := { Name := "" }
    Selectors := none }

/-- A decoder for the texts of the examples. The five texts above decode to their
definitions. The empty text decodes to the zero definition, as it does with
`encoding.Unmarshal`, which reads as YAML what it cannot read as JSON. The text `\x7b`, an
opening brace alone, is neither, and is refused; the text of the error stands for the
one of the decoder, which no theorem depends on. The function is used on no other text. -/
def exampleUnmarshal (jsonStr : String) : Except String RelationshipDefinition :=
  if jsonStr = exampleJSON then .ok exampleDefinition
  else if jsonStr = patchJSON then .ok patchDefinition
  else if jsonStr = oneSidedJSON then .ok oneSidedDefinition
  else if jsonStr = ambiguousJSON then .ok ambiguousDefinition
  else if jsonStr = "\x7b\x7d" then .ok zeroDefinition
  else if jsonStr = "" then .ok zeroDefinition
  else .error "yaml: line 1: did not find expected node content"

/-- The environment of the examples: every `range` loop visits the keys in the order
`ro` gives. -/
def exampleEnv (ro : RangeOrder) : Env :=
  { Unmarshal := exampleUnmarshal, ToLower := asciiToLower, rangeOrder := ro }

/-- The `range` order that visits the keys as they are listed. -/
def listedOrder : RangeOrder :=
  fun _ keys => keys

/-- The `range` order that visits the keys in the reverse of `listedOrder`. -/
def reverseOrder : RangeOrder :=
  fun _ keys => keys.reverse

/-- A client whose server answers with five components of four kinds. -/
def exampleClient : MesheryClient :=
  { BaseURL := "http://localhost:9081"
    HTTPClient := fun _ =>
      .decoded { TotalCount := 5
                 Components := ["Service", "Deployment", "", "DaemonSet", "Service", "Pod"] } }

/-- A client whose server answers with the kinds `Pod`, `Service` and
`ServiceAccount`. -/
def servicesClient : MesheryClient :=
  { BaseURL := "http://localhost:9081"
    HTTPClient := fun _ =>
      .decoded { TotalCount := 3, Components := ["Pod", "Service", "ServiceAccount"] } }

/-- A client whose server cannot be reached. -/
def offlineClient : MesheryClient :=
  { BaseURL := "http://localhost:9081"
    HTTPClient := fun _ => .getError "dial tcp 127.0.0.1:9081: connect: connection refused" }

/-! ## The standard edit distance and the strict order of strings -/

/-- The standard Levenshtein distance by its usual recursive definition: the distance to
or from the empty sequence is the length of the other one; otherwise it is the least of
the three ways to end, an insertion, a deletion, or a substitution that costs nothing when
the two elements are equal. -/
def editDistance : List Nat → List Nat → Nat
  | [], b => b.length
  | a, [] => a.length
  | x :: a, y :: b =>
    min (editDistance (x :: a) b + 1)
      (min (editDistance a (y :: b) + 1) (editDistance a b + if x = y then 0 else 1))
termination_by a b => a.length + b.length

/-- The entry `(i, j)` of the full table: the distance between the first `i` elements of
`a` and the first `j` elements of `b`. -/
def tableEntry (a b : List Nat) (i j : Nat) : Nat :=
  editDistance (a.take i) (b.take j)

/-- The strict order of strings that goes with `stringLE`. -/
def stringLT (a b : String) : Prop :=
  a.data < b.data

/-! ## More example inputs -/

/-- A definition text in which every endpoint names a model other than `kubernetes`. -/
def crossModelJSON : String :=
  "\x7b\"schemaVersion\":\"relationships.meshery.io/v1alpha3\",\"kind\":\"edge\"," ++
  "\"subType\":\"network\",\"model\":\x7b\"name\":\"kubernetes\"\x7d," ++
  "\"selectors\":[\x7b\"allow\":\x7b\"from\":[" ++
  "\x7b\"kind\":\"Bucket\",\"model\":\x7b\"name\":\"aws-s3\"\x7d\x7d]," ++
  "\"to\":[\x7b\"kind\":\"Queue\",\"model\":\x7b\"name\":\"aws-sqs\"\x7d\x7d]\x7d\x7d]\x7d"

/-- The definition that `crossModelJSON` decodes to. -/
def crossModelDefinition : RelationshipDefinition :=
  { SchemaVersion := "relationships.meshery.io/v1alpha3"
    Kind := "edge"
    SubType := "network"
    Model := { Name := "kubernetes" }
    Selectors := some
      [{ Allow :=
          { From := [{ Kind := some "Bucket", Model := some { Name := "aws-s3" }
                       Patch := none }]
            To := [{ Kind := some "Queue", Model := some { Name := "aws-sqs" }
                     Patch := none }] } }] }

/-- A definition text whose endpoint kinds are `*`, the empty string, or absent. -/
def wildcardJSON : String :=
  "\x7b\"schemaVersion\":\"relationships.meshery.io/v1alpha3\",\"kind\":\"edge\"," ++
  "\"subType\":\"network\",\"model\":\x7b\"name\":\"kubernetes\"\x7d," ++
  "\"selectors\":[\x7b\"allow\":\x7b\"from\":[\x7b\"kind\":\"*\"\x7d]," ++
  "\"to\":[\x7b\"kind\":\"\"\x7d,\x7b\x7d]\x7d\x7d]\x7d"

/-- The definition that `wildcardJSON` decodes to. -/
def wildcardDefinition : RelationshipDefinition :=
  { SchemaVersion := "relationships.meshery.io/v1alpha3"
    Kind := "edge"
    SubType := "network"
    Model := { Name := "kubernetes" }
    Selectors := some
      [{ Allow :=
          { From := [{ Kind := some "*", Model := none, Patch := none }]
            To := [{ Kind := some "", Model := none, Patch := none },
                   { Kind := none, Model := none, Patch := none }] } }] }

/-- The text `exampleJSON` with an empty `subType`. -/
def noSubTypeJSON : String :=
  "\x7b\"schemaVersion\":\"relationships.meshery.io/v1alpha3\",\"kind\":\"edge\"," ++
  "\"subType\":\"\",\"model\":\x7b\"name\":\"kubernetes\"\x7d," ++
  "\"selectors\":[\x7b\"allow\":\x7b\"from\":[\x7b\"kind\":\"Depolyment\"\x7d]," ++
  "\"to\":[\x7b\"kind\":\"Service\"\x7d," ++
  "\x7b\"kind\":\"Pod\",\"model\":\x7b\"name\":\"kubernetes\"\x7d\x7d," ++
  "\x7b\"kind\":\"Bucket\",\"model\":\x7b\"name\":\"aws-s3\"\x7d\x7d," ++
  "\x7b\"kind\":\"*\"\x7d]\x7d\x7d]\x7d"

/-- The definition that `noSubTypeJSON` decodes to. -/
def noSubTypeDefinition : RelationshipDefinition :=
  { exampleDefinition with SubType := "" }

/-- A decoder that agrees with `encoding.Unmarshal` on the three texts above and on the
texts of `exampleUnmarshal`. -/
def moreUnmarshal (jsonStr : String) : Except String RelationshipDefinition :=
  if jsonStr = crossModelJSON then .ok crossModelDefinition
  else if jsonStr = wildcardJSON then .ok wildcardDefinition
  else if jsonStr = noSubTypeJSON then .ok noSubTypeDefinition
  else exampleUnmarshal jsonStr

/-- The environment of the further examples. -/
def moreEnv (ro : RangeOrder) : Env :=
  { Unmarshal := moreUnmarshal, ToLower := asciiToLower, rangeOrder := ro }

/-- The known kinds `Deployment`, `Service`, `StatefulSet`, every loop visiting them in
the reverse of this order. -/
def threeKinds : KindSet :=
  makeKindSet reverseOrder ["Deployment", "Service", "StatefulSet"]

/-- The known kinds `Deploy`, `Deployments`, `Deployment`, visited in this order: the
first two match the target `deployment` by prefix only. -/
def deployKinds : KindSet :=
  makeKindSet listedOrder ["Deploy", "Deployments", "Deployment"]

/-- The known kinds `Node` and `RoleBinding`, visited in this order: for the target `Role`
the first is at distance 2, the second matches by prefix and is at distance 7. -/
def roleKinds : KindSet :=
  makeKindSet listedOrder ["Node", "RoleBinding"]

/-- At most one of the known kinds qualifies for the kind that the endpoint names. -/
def NoTie (ToLower : String → String) (kinds : List String) (item : SelectorItem) : Prop :=
  ∀ a ∈ kinds, ∀ b ∈ kinds,
    Qualifies ToLower (item.Kind.getD "") kinds a →
    Qualifies ToLower (item.Kind.getD "") kinds b → a = b

instance NoTie.decidable (ToLower : String → String) (kinds : List String)
    (item : SelectorItem) : Decidable (NoTie ToLower kinds item) := by
  unfold NoTie
  exact inferInstance

/-! ## Lemmas on phase 1 -/

theorem extend_nil (r : ValidationResult) : extend r [] = r := by
  cases r; simp [extend]

theorem extend_extend (r : ValidationResult) (a b : List ValidationError) :
    extend (extend r a) b = extend r (a ++ b) := by
  cases a <;> simp [extend, Bool.and_assoc]

theorem checkPatches_eq (i : Nat) (msg : String) (items : List SelectorItem)
    (r : ValidationResult) :
    checkPatches i msg items r = extend r (patchErrors i msg items) := by
  induction items generalizing r with
  | nil => simp [checkPatches, patchErrors, extend_nil]
  | cons item rest ih =>
    have step : checkPatches i msg (item :: rest) r =
        checkPatches i msg rest
          (if patchStrategyMissing item then
            { r with
              Valid := false
              Errors := r.Errors ++
                [{ Field := "selectors", Message := selectorMsg i msg, Suggestion := "" }] }
           else r) := by
      simp [checkPatches]
    rw [step, ih]
    by_cases h : patchStrategyMissing item = true
    · simp [h, patchErrors, extend]
    · simp [h, patchErrors]

theorem checkSelector_eq (i : Nat) (sel : SelectorSetItem) (r : ValidationResult) :
    checkSelector i sel r = extend r (selectorErrors i sel) := by
  unfold checkSelector selectorErrors
  simp only [checkPatches_eq, extend_extend]
  split
  · simp [extend]
  · simp

theorem checkSelectors_eq (i : Nat) (sels : List SelectorSetItem) (r : ValidationResult) :
    checkSelectors i sels r = extend r (selectorsErrors i sels) := by
  induction sels generalizing i r with
  | nil => simp [checkSelectors, selectorsErrors, extend_nil]
  | cons sel rest ih =>
    simp [checkSelectors, selectorsErrors, ih, checkSelector_eq, extend_extend]

theorem phase1_eq (relDef : RelationshipDefinition) :
    phase1 relDef =
      { Valid := (phase1Errors relDef).isEmpty
        Errors := phase1Errors relDef
        Warnings := phase1Warnings relDef } := by
  unfold phase1 phase1Errors phase1Warnings schemaVersionErrors kindErrors modelNameErrors
    selectorCheckErrors
  by_cases h1 : relDef.SchemaVersion = RelationshipSchemaVersion <;>
  by_cases h2 : (relDef.Kind = Edge ∨ relDef.Kind = Hierarchical) ∨ relDef.Kind = Sibling <;>
  by_cases h3 : relDef.Model.Name = "" <;>
  by_cases h4 : relDef.SubType = "" <;>
  cases h5 : relDef.Selectors <;>
  simp [h1, h2, h3, h4, checkSelectors_eq, extend] <;>
  split <;> simp

/-! ## Lemmas on phase 2 -/

theorem isMissing_congr {a b : List String} (h : ∀ k, k ∈ a ↔ k ∈ b) (modelName : String)
    (item : SelectorItem) : isMissing a modelName item = isMissing b modelName item := by
  unfold isMissing
  cases item.Kind with
  | none => rfl
  | some kind => simp [h kind]

theorem crossCheck_eq (ToLower : String → String) (modelName field : String)
    (st : ValidationResult × KindSet) (item : SelectorItem) :
    crossCheck ToLower modelName field st item =
      if isMissing st.2.keys modelName item then
        (extend st.1
          [{ Field := field
             Message := "component kind not found in model: " ++ item.Kind.getD ""
             Suggestion := findClosestKind ToLower (item.Kind.getD "") st.2 }],
         st.2.skip 3)
      else st := by
  unfold crossCheck isMissing otherModel KindSet.contains
  cases hk : item.Kind with
  | none => simp
  | some kind =>
    cases hm : item.Model with
    | none =>
      by_cases h1 : kind = "" <;> by_cases h2 : kind = "*" <;>
        by_cases h3 : kind ∈ st.2.keys <;> simp [h1, h2, h3, extend]
    | some m =>
      by_cases h1 : kind = "" <;> by_cases h2 : kind = "*" <;>
        by_cases h3 : kind ∈ st.2.keys <;> by_cases h4 : m.Name = "" <;>
        by_cases h5 : m.Name = modelName <;> simp [h1, h2, h3, h4, h5, extend]

theorem crossCheck_foldl (ToLower : String → String) (modelName field : String)
    (items : List SelectorItem) (st : ValidationResult × KindSet) :
    ∃ es : List ValidationError,
      (items.foldl (crossCheck ToLower modelName field) st).1 = extend st.1 es ∧
      (items.foldl (crossCheck ToLower modelName field) st).2.keys = st.2.keys ∧
      es.map fieldMessage =
        ((items.map (fun item => (field, item))).filter
          (fun p => isMissing st.2.keys modelName p.2)).map missingReport := by
  induction items generalizing st with
  | nil => exact ⟨[], by simp [extend_nil]⟩
  | cons item rest ih =>
    obtain ⟨es, h1, h2, h3⟩ := ih (crossCheck ToLower modelName field st item)
    have hkeys : (crossCheck ToLower modelName field st item).2.keys = st.2.keys := by
      rw [crossCheck_eq]
      split <;> simp [KindSet.skip]
    rw [hkeys] at h2 h3
    rw [List.foldl_cons, h1, h2]
    by_cases hm : isMissing st.2.keys modelName item = true
    · refine ⟨{ Field := field
                Message := "component kind not found in model: " ++ item.Kind.getD ""
                Suggestion := findClosestKind ToLower (item.Kind.getD "") st.2 } :: es,
        ?_, rfl, ?_⟩
      · rw [crossCheck_eq]
        simp [hm, extend_extend]
      · simp [hm, h3, fieldMessage, missingReport]
    · refine ⟨es, ?_, rfl, ?_⟩
      · rw [crossCheck_eq]
        simp [hm]
      · simp [hm, h3]

theorem crossCheckSelector_foldl (ToLower : String → String) (modelName : String)
    (sels : List SelectorSetItem) (st : ValidationResult × KindSet) :
    ∃ es : List ValidationError,
      (sels.foldl (crossCheckSelector ToLower modelName) st).1 = extend st.1 es ∧
      (sels.foldl (crossCheckSelector ToLower modelName) st).2.keys = st.2.keys ∧
      es.map fieldMessage =
        ((endpoints sels).filter (fun p => isMissing st.2.keys modelName p.2)).map
          missingReport := by
  induction sels generalizing st with
  | nil => exact ⟨[], by simp [extend_nil, endpoints]⟩
  | cons sel rest ih =>
    obtain ⟨e1, a1, a2, a3⟩ := crossCheck_foldl ToLower modelName
      "selectors.allow.from.kind" sel.Allow.From st
    obtain ⟨e2, b1, b2, b3⟩ := crossCheck_foldl ToLower modelName
      "selectors.allow.to.kind" sel.Allow.To
      (sel.Allow.From.foldl (crossCheck ToLower modelName "selectors.allow.from.kind") st)
    obtain ⟨e3, c1, c2, c3⟩ := ih (crossCheckSelector ToLower modelName st sel)
    have hsel : crossCheckSelector ToLower modelName st sel =
        sel.Allow.To.foldl (crossCheck ToLower modelName "selectors.allow.to.kind")
          (sel.Allow.From.foldl (crossCheck ToLower modelName "selectors.allow.from.kind")
            st) := rfl
    have hk : (crossCheckSelector ToLower modelName st sel).2.keys = st.2.keys := by
      rw [hsel, b2, a2]
    refine ⟨e1 ++ (e2 ++ e3), ?_, ?_, ?_⟩
    · rw [List.foldl_cons, c1, hsel, b1, a1, extend_extend, extend_extend]
    · rw [List.foldl_cons, c2, hk]
    · rw [hk] at c3
      rw [a2] at b3
      simp only [List.map_append, a3, b3, c3, endpoints, List.filter_append]
      simp

theorem mem_foldl_mapSet (kinds acc : List String) (k : String) :
    k ∈ kinds.foldl mapSet acc ↔ k ∈ acc ∨ k ∈ kinds := by
  induction kinds generalizing acc with
  | nil => simp
  | cons x rest ih =>
    rw [List.foldl_cons, ih]
    unfold mapSet
    by_cases hx : x ∈ acc
    · simp only [hx, if_true, List.mem_cons]
      constructor
      · rintro (h | h)
        · exact Or.inl h
        · exact Or.inr (Or.inr h)
      · rintro (h | h | h)
        · exact Or.inl h
        · exact Or.inl (h ▸ hx)
        · exact Or.inr h
    · simp only [hx, if_false, List.mem_append, List.mem_singleton, List.mem_cons]
      tauto

theorem mem_makeKindSet (ro : RangeOrder) (kinds : List String) (k : String) :
    k ∈ (makeKindSet ro kinds).keys ↔ k ∈ kinds := by
  simp [makeKindSet, mem_foldl_mapSet]

/-! ## The four ways through `ValidateRelationship` -/

theorem validate_parse_error {env : Env} {jsonStr err : String}
    (h : env.Unmarshal jsonStr = .error err) (client : Option MesheryClient)
    (modelName : String) :
    ValidateRelationship env jsonStr client modelName =
      { Valid := false
        Errors := [{ Field := "root"
                     Message := "failed to parse relationship JSON: " ++ err
                     Suggestion := "" }]
        Warnings := [] } := by
  simp [ValidateRelationship, h]

theorem validate_skip {env : Env} {jsonStr : String} {relDef : RelationshipDefinition}
    (h : env.Unmarshal jsonStr = .ok relDef) {client : Option MesheryClient}
    {modelName : String}
    (hs : client = none ∨ (phase1 relDef).Valid = false ∨ modelName = "") :
    ValidateRelationship env jsonStr client modelName = phase1 relDef := by
  cases client with
  | none => simp [ValidateRelationship, h]
  | some c =>
    rcases hs with hs | hs | hs
    · cases hs
    · simp [ValidateRelationship, h, hs]
    · simp [ValidateRelationship, h, hs]

theorem validate_fetch_error {env : Env} {jsonStr : String} {relDef : RelationshipDefinition}
    (h : env.Unmarshal jsonStr = .ok relDef) {c : MesheryClient} {modelName err : String}
    (hv : (phase1 relDef).Valid = true) (hm : modelName ≠ "")
    (hf : GetComponentKinds (env.rangeOrder 0) c modelName = .error err) :
    ValidateRelationship env jsonStr (some c) modelName =
      { Valid := (phase1 relDef).Valid
        Errors := (phase1 relDef).Errors
        Warnings := (phase1 relDef).Warnings ++
          [{ Field := "components"
             Message := "could not fetch components for cross-reference: " ++ err
             Suggestion := "" }] } := by
  simp [ValidateRelationship, h, hv, hm, hf]

theorem validate_fetch_ok {env : Env} {jsonStr : String} {relDef : RelationshipDefinition}
    (h : env.Unmarshal jsonStr = .ok relDef) {c : MesheryClient} {modelName : String}
    {kinds : List String} {total : Int}
    (hv : (phase1 relDef).Valid = true) (hm : modelName ≠ "")
    (hf : GetComponentKinds (env.rangeOrder 0) c modelName = .ok (kinds, total)) :
    ∃ es : List ValidationError,
      ValidateRelationship env jsonStr (some c) modelName = extend (phase1 relDef) es ∧
      es.map fieldMessage =
        ((endpoints (relDef.Selectors.getD [])).filter
          (fun p => isMissing kinds modelName p.2)).map missingReport := by
  cases hsel : relDef.Selectors with
  | none =>
    refine ⟨[], ?_, ?_⟩
    · simp [ValidateRelationship, h, hv, hm, hf, hsel, extend_nil]
    · simp [endpoints]
  | some sels =>
    obtain ⟨es, h1, _, h3⟩ := crossCheckSelector_foldl env.ToLower modelName sels
      (phase1 relDef, makeKindSet env.rangeOrder kinds)
    refine ⟨es, ?_, ?_⟩
    · simp [ValidateRelationship, h, hv, hm, hf, hsel, h1]
    · rw [h3]
      have hc : (fun p : String × SelectorItem =>
            isMissing (makeKindSet env.rangeOrder kinds).keys modelName p.2) =
          (fun p => isMissing kinds modelName p.2) := by
        funext p
        exact isMissing_congr (mem_makeKindSet env.rangeOrder kinds) modelName p.2
      simp only [hc, Option.getD_some]

theorem mem_endpoints_field {sels : List SelectorSetItem} {p : String × SelectorItem}
    (hp : p ∈ endpoints sels) :
    p.1 = "selectors.allow.from.kind" ∨ p.1 = "selectors.allow.to.kind" := by
  induction sels with
  | nil => simp [endpoints] at hp
  | cons sel rest ih =>
    simp only [endpoints, List.mem_append, List.mem_map] at hp
    rcases hp with (⟨_, _, rfl⟩ | ⟨_, _, rfl⟩) | hp
    · exact Or.inl rfl
    · exact Or.inr rfl
    · exact ih hp

/-- The shape of every result on a definition that parses: the errors of phase 1 followed
by errors of phase 2, which are there only when phase 1 has none. -/
theorem validate_shape {env : Env} {jsonStr : String} {relDef : RelationshipDefinition}
    (h : env.Unmarshal jsonStr = .ok relDef) (client : Option MesheryClient)
    (modelName : String) :
    ∃ es ws : List ValidationError,
      ValidateRelationship env jsonStr client modelName =
        { Valid := (phase1Errors relDef ++ es).isEmpty
          Errors := phase1Errors relDef ++ es
          Warnings := phase1Warnings relDef ++ ws } ∧
      (es ≠ [] → phase1Errors relDef = []) ∧
      (∀ e ∈ es, ∃ p : String × SelectorItem, fieldMessage e = missingReport p ∧
        (p.1 = "selectors.allow.from.kind" ∨ p.1 = "selectors.allow.to.kind")) ∧
      (∀ w ∈ ws, w.Field = "components") := by
  by_cases hs : client = none ∨ (phase1 relDef).Valid = false ∨ modelName = ""
  · refine ⟨[], [], ?_, by simp, by simp, by simp⟩
    rw [validate_skip h hs, phase1_eq]
    simp
  · simp only [not_or] at hs
    obtain ⟨hc, hv, hm⟩ := hs
    obtain ⟨c, rfl⟩ := Option.ne_none_iff_exists'.mp hc
    have hv1 : (phase1 relDef).Valid = true := by simpa using hv
    have hnil : phase1Errors relDef = [] := by
      rw [phase1_eq] at hv1
      simpa using hv1
    cases hf : GetComponentKinds (env.rangeOrder 0) c modelName with
    | error err =>
      refine ⟨[], [{ Field := "components"
                     Message := "could not fetch components for cross-reference: " ++ err
                     Suggestion := "" }], ?_, by simp, by simp, ?_⟩
      · rw [validate_fetch_error h hv1 hm hf, phase1_eq]
        simp
      · simp
    | ok r =>
      obtain ⟨kinds, total⟩ := r
      obtain ⟨es, h1, h2⟩ := validate_fetch_ok h hv1 hm hf
      refine ⟨es, [], ?_, fun _ => hnil, ?_, by simp⟩
      · rw [h1, phase1_eq]
        simp [extend, hnil]
      · intro e he
        have : fieldMessage e ∈ es.map fieldMessage := List.mem_map_of_mem _ he
        rw [h2] at this
        obtain ⟨p, hp, hpe⟩ := List.mem_map.mp this
        exact ⟨p, hpe.symm, mem_endpoints_field (List.mem_filter.mp hp).1⟩

/-! ## Fields of the errors of phase 1 -/

theorem mem_patchErrors_field {i : Nat} {msg : String} {items : List SelectorItem}
    {e : ValidationError} (he : e ∈ patchErrors i msg items) : e.Field = "selectors" := by
  simp only [patchErrors, List.mem_map] at he
  obtain ⟨_, _, rfl⟩ := he
  rfl

theorem mem_selectorErrors_field {i : Nat} {sel : SelectorSetItem} {e : ValidationError}
    (he : e ∈ selectorErrors i sel) : e.Field = "selectors" := by
  simp only [selectorErrors, List.mem_append] at he
  rcases he with he | he | he
  · split at he
    · simp only [List.mem_singleton] at he
      rw [he]
    · simp at he
  · exact mem_patchErrors_field he
  · exact mem_patchErrors_field he

theorem mem_selectorsErrors_field {i : Nat} {sels : List SelectorSetItem}
    {e : ValidationError} (he : e ∈ selectorsErrors i sels) : e.Field = "selectors" := by
  induction sels generalizing i with
  | nil => simp [selectorsErrors] at he
  | cons sel rest ih =>
    simp only [selectorsErrors, List.mem_append] at he
    rcases he with he | he
    · exact mem_selectorErrors_field he
    · exact ih he

theorem mem_selectorCheckErrors_field {relDef : RelationshipDefinition}
    {e : ValidationError} (he : e ∈ selectorCheckErrors relDef) : e.Field = "selectors" := by
  unfold selectorCheckErrors at he
  split at he
  · simp only [List.mem_singleton] at he
    rw [he]
  · split at he
    · simp only [List.mem_singleton] at he
      rw [he]
    · exact mem_selectorsErrors_field he

theorem mem_kindErrors_field {relDef : RelationshipDefinition} {e : ValidationError}
    (he : e ∈ kindErrors relDef) : e.Field = "kind" := by
  unfold kindErrors at he
  split at he
  · simp at he
  · simp only [List.mem_singleton] at he
    rw [he]

theorem mem_modelNameErrors_field {relDef : RelationshipDefinition} {e : ValidationError}
    (he : e ∈ modelNameErrors relDef) : e.Field = "model.name" := by
  unfold modelNameErrors at he
  split at he
  · simp only [List.mem_singleton] at he
    rw [he]
  · simp at he

theorem mem_schemaVersionErrors_field {relDef : RelationshipDefinition}
    {e : ValidationError} (he : e ∈ schemaVersionErrors relDef) :
    e.Field = "schemaVersion" := by
  unfold schemaVersionErrors at he
  split at he
  · simp only [List.mem_singleton] at he
    rw [he]
  · simp at he

/-! ## The claims on `ValidateRelationship` -/

/-- C1: for every input, `Valid` is true if and only if the list of errors is empty;
the warnings play no part. -/
theorem validate_valid_iff_no_errors (env : Env) (jsonStr : String)
    (client : Option MesheryClient) (modelName : String) :
    (ValidateRelationship env jsonStr client modelName).Valid = true ↔
      (ValidateRelationship env jsonStr client modelName).Errors = [] := by
  cases h : env.Unmarshal jsonStr with
  | error err => simp [validate_parse_error h]
  | ok relDef =>
    obtain ⟨es, ws, hr, _⟩ := validate_shape h client modelName
    rw [hr]
    simp

/-- C2: a definition that parses and whose `schemaVersion` is not the expected constant
has exactly one error on the field `schemaVersion`, whatever its other fields, the client
and the model name are; the suggestion of that error is the expected constant. -/
theorem validate_schemaVersion_error {env : Env} {jsonStr : String}
    {relDef : RelationshipDefinition} (h : env.Unmarshal jsonStr = .ok relDef)
    (hne : relDef.SchemaVersion ≠ RelationshipSchemaVersion)
    (client : Option MesheryClient) (modelName : String) :
    (ValidateRelationship env jsonStr client modelName).Errors.filter
        (fun e => e.Field = "schemaVersion") =
      [{ Field := "schemaVersion"
         Message := "invalid schemaVersion: " ++ relDef.SchemaVersion
         Suggestion := RelationshipSchemaVersion }] := by
  obtain ⟨es, ws, hr, hes, hf, _⟩ := validate_shape h client modelName
  have hs : schemaVersionErrors relDef =
      [{ Field := "schemaVersion"
         Message := "invalid schemaVersion: " ++ relDef.SchemaVersion
         Suggestion := RelationshipSchemaVersion }] := by
    simp [schemaVersionErrors, hne]
  have hnil : es = [] := by
    by_contra hne'
    have := hes hne'
    simp [phase1Errors, hs] at this
  have h1 : (kindErrors relDef).filter (fun e => e.Field = "schemaVersion") = [] := by
    rw [List.filter_eq_nil_iff]
    intro e he
    simp [mem_kindErrors_field he]
  have h2 : (modelNameErrors relDef).filter (fun e => e.Field = "schemaVersion") = [] := by
    rw [List.filter_eq_nil_iff]
    intro e he
    simp [mem_modelNameErrors_field he]
  have h3 : (selectorCheckErrors relDef).filter (fun e => e.Field = "schemaVersion") = [] := by
    rw [List.filter_eq_nil_iff]
    intro e he
    simp [mem_selectorCheckErrors_field he]
  rw [hr, hnil]
  simp only [phase1Errors, List.append_nil, List.filter_append, h1, h2, h3, hs]
  simp

/-- C2, instantiated: the text `\x7b\x7d` decodes to a definition with an empty
`schemaVersion`. -/
theorem validate_schemaVersion_error_witness :
    (exampleEnv listedOrder).Unmarshal "\x7b\x7d" = .ok zeroDefinition ∧
    zeroDefinition.SchemaVersion ≠ RelationshipSchemaVersion ∧
    (ValidateRelationship (exampleEnv listedOrder) "\x7b\x7d" (some exampleClient)
        "kubernetes").Errors.filter (fun e => e.Field = "schemaVersion") =
      [{ Field := "schemaVersion"
         Message := "invalid schemaVersion: " ++ zeroDefinition.SchemaVersion
         Suggestion := RelationshipSchemaVersion }] :=
  ⟨rfl, by decide,
    @validate_schemaVersion_error (exampleEnv listedOrder) "\x7b\x7d" zeroDefinition rfl (by decide) (some exampleClient) "kubernetes"⟩

/-- C3: on a definition that parses, the result has an error on the field `kind` if and
only if the kind is none of `edge`, `hierarchical`, `sibling`. -/
theorem validate_kind_error_iff {env : Env} {jsonStr : String}
    {relDef : RelationshipDefinition} (h : env.Unmarshal jsonStr = .ok relDef)
    (client : Option MesheryClient) (modelName : String) :
    (∃ e ∈ (ValidateRelationship env jsonStr client modelName).Errors, e.Field = "kind") ↔
      ¬ (relDef.Kind = "edge" ∨ relDef.Kind = "hierarchical" ∨ relDef.Kind = "sibling") := by
  obtain ⟨es, ws, hr, hes, hf, _⟩ := validate_shape h client modelName
  rw [hr]
  constructor
  · rintro ⟨e, he, hk⟩
    simp only [phase1Errors, List.mem_append] at he
    rcases he with (he | he | he | he) | he
    · have := mem_schemaVersionErrors_field he
      rw [hk] at this
      exact absurd this (by decide)
    · intro hv
      have : kindErrors relDef = [] := by
        unfold kindErrors
        rcases hv with hv | hv | hv <;> simp [hv, Edge, Hierarchical, Sibling]
      rw [this] at he
      simp at he
    · have := mem_modelNameErrors_field he
      rw [hk] at this
      exact absurd this (by decide)
    · have := mem_selectorCheckErrors_field he
      rw [hk] at this
      exact absurd this (by decide)
    · obtain ⟨p, hp, hfield⟩ := hf e he
      have h1 : e.Field = p.1 := congrArg Prod.fst hp
      rw [hk] at h1
      rcases hfield with hfield | hfield
      · rw [hfield] at h1
        exact absurd h1 (by decide)
      · rw [hfield] at h1
        exact absurd h1 (by decide)
  · intro hv
    refine ⟨{ Field := "kind"
              Message := "invalid kind: " ++ relDef.Kind
              Suggestion := "must be one of: edge, hierarchical, sibling" }, ?_, rfl⟩
    have : kindErrors relDef =
        [{ Field := "kind"
           Message := "invalid kind: " ++ relDef.Kind
           Suggestion := "must be one of: edge, hierarchical, sibling" }] := by
      unfold kindErrors
      simp only [not_or] at hv
      simp [hv, Edge, Hierarchical, Sibling]
    simp [phase1Errors, this]

set_option maxRecDepth 100000 in
/-- C3, instantiated on the example definition, whose kind is `edge`. -/
theorem validate_kind_error_iff_witness :
    (exampleEnv listedOrder).Unmarshal exampleJSON = .ok exampleDefinition ∧
    ((∃ e ∈ (ValidateRelationship (exampleEnv listedOrder) exampleJSON
        (some exampleClient) "kubernetes").Errors, e.Field = "kind") ↔
      ¬ (exampleDefinition.Kind = "edge" ∨ exampleDefinition.Kind = "hierarchical" ∨
        exampleDefinition.Kind = "sibling")) :=
  ⟨rfl,
    @validate_kind_error_iff (exampleEnv listedOrder) exampleJSON exampleDefinition rfl (some exampleClient) "kubernetes"⟩

/-- C6: when the text does not parse, the result is invalid, has the single error on the
field `root` and no warning, whatever the client and the model name are: nothing of the
result comes from a later check or from the catalog. -/
theorem validate_parse_failure (env : Env) (jsonStr err : String)
    (h : env.Unmarshal jsonStr = .error err) (client : Option MesheryClient)
    (modelName : String) :
    (ValidateRelationship env jsonStr client modelName).Valid = false ∧
    (ValidateRelationship env jsonStr client modelName).Errors =
      [{ Field := "root"
         Message := "failed to parse relationship JSON: " ++ err
         Suggestion := "" }] ∧
    (ValidateRelationship env jsonStr client modelName).Warnings = [] := by
  rw [validate_parse_error h]
  exact ⟨rfl, rfl, rfl⟩

/-- C6, instantiated on the text `\x7b`, an opening brace alone, which the decoder
refuses, with a client and a model name. -/
theorem validate_parse_failure_witness :
    (exampleEnv listedOrder).Unmarshal "\x7b" =
      .error "yaml: line 1: did not find expected node content" ∧
    (ValidateRelationship (exampleEnv listedOrder) "\x7b" (some exampleClient)
      "kubernetes").Valid = false ∧
    (ValidateRelationship (exampleEnv listedOrder) "\x7b" (some exampleClient)
      "kubernetes").Errors =
      [{ Field := "root"
         Message := "failed to parse relationship JSON: " ++
           "yaml: line 1: did not find expected node content"
         Suggestion := "" }] ∧
    (ValidateRelationship (exampleEnv listedOrder) "\x7b" (some exampleClient)
      "kubernetes").Warnings = [] :=
  ⟨rfl, validate_parse_failure (exampleEnv listedOrder) "\x7b"
    "yaml: line 1: did not find expected node content" rfl (some exampleClient) "kubernetes"⟩

/-- C7: on a definition that parses, if phase 1 produced an error, or the model name is
empty, or there is no client, the result is the result of phase 1. It is then the same
for every other client (a client being supplied or not as before) and every other order
of the `range` loops, it has no error on `selectors.allow.from.kind` or
`selectors.allow.to.kind`, and no warning on `components`. -/
theorem validate_phase2_skipped (env : Env) (jsonStr : String)
    (relDef : RelationshipDefinition) (client : Option MesheryClient) (modelName : String)
    (h : env.Unmarshal jsonStr = .ok relDef)
    (hs : (phase1 relDef).Errors ≠ [] ∨ modelName = "" ∨ client = none) :
    ValidateRelationship env jsonStr client modelName = phase1 relDef ∧
    (∀ (client' : Option MesheryClient) (ro : RangeOrder),
      (client' = none ↔ client = none) →
      ValidateRelationship { env with rangeOrder := ro } jsonStr client' modelName =
        ValidateRelationship env jsonStr client modelName) ∧
    (∀ e ∈ (ValidateRelationship env jsonStr client modelName).Errors,
      e.Field ≠ "selectors.allow.from.kind" ∧ e.Field ≠ "selectors.allow.to.kind") ∧
    (∀ w ∈ (ValidateRelationship env jsonStr client modelName).Warnings,
      w.Field ≠ "components") := by
  have hinv : (phase1 relDef).Errors ≠ [] → (phase1 relDef).Valid = false := by
    rw [phase1_eq]
    intro hne
    cases hp : phase1Errors relDef with
    | nil => simp [hp] at hne
    | cons a l => simp
  have key : ∀ (client' : Option MesheryClient) (env' : Env),
      env'.Unmarshal jsonStr = .ok relDef → (client' = none ↔ client = none) →
      ValidateRelationship env' jsonStr client' modelName = phase1 relDef := by
    intro client' env' h' hc
    apply validate_skip h'
    rcases hs with hs | hs | hs
    · exact Or.inr (Or.inl (hinv hs))
    · exact Or.inr (Or.inr hs)
    · exact Or.inl (hc.mpr hs)
  have hme := key client env h Iff.rfl
  refine ⟨hme, ?_, ?_, ?_⟩
  · intro client' ro hc
    rw [hme]
    exact key client' { env with rangeOrder := ro } h hc
  · rw [hme, phase1_eq]
    intro e he
    simp only [phase1Errors, List.mem_append] at he
    rcases he with he | he | he | he
    · rw [mem_schemaVersionErrors_field he]; decide
    · rw [mem_kindErrors_field he]; decide
    · rw [mem_modelNameErrors_field he]; decide
    · rw [mem_selectorCheckErrors_field he]; decide
  · rw [hme, phase1_eq]
    intro w hw
    simp only [phase1Warnings] at hw
    split at hw
    · simp only [List.mem_singleton] at hw
      rw [hw]; decide
    · simp at hw

set_option maxRecDepth 100000 in
/-- C7, instantiated on the example definition, which passes phase 1, with a client and
an empty model name. -/
theorem validate_phase2_skipped_witness :
    (exampleEnv listedOrder).Unmarshal exampleJSON = .ok exampleDefinition ∧
    ((phase1 exampleDefinition).Errors ≠ [] ∨ "" = "" ∨ some exampleClient = none) ∧
    ValidateRelationship (exampleEnv listedOrder) exampleJSON (some exampleClient) "" =
      phase1 exampleDefinition :=
  ⟨rfl, Or.inr (Or.inl rfl),
    (validate_phase2_skipped (exampleEnv listedOrder) exampleJSON exampleDefinition
      (some exampleClient) "" rfl (Or.inr (Or.inl rfl))).1⟩

/-- C8: on a definition that passes phase 1, with a client and a non-empty model name,
a failing fetch leaves the result valid and without errors, and the warnings are those of
phase 1 followed by one warning on the field `components`. -/
theorem validate_fetch_failure (env : Env) (jsonStr : String)
    (relDef : RelationshipDefinition) (c : MesheryClient) (modelName err : String)
    (h : env.Unmarshal jsonStr = .ok relDef)
    (hv : (phase1 relDef).Valid = true) (hm : modelName ≠ "")
    (hf : GetComponentKinds (env.rangeOrder 0) c modelName = .error err) :
    (ValidateRelationship env jsonStr (some c) modelName).Valid = true ∧
    (ValidateRelationship env jsonStr (some c) modelName).Errors = [] ∧
    (ValidateRelationship env jsonStr (some c) modelName).Warnings =
      (phase1 relDef).Warnings ++
        [{ Field := "components"
           Message := "could not fetch components for cross-reference: " ++ err
           Suggestion := "" }] := by
  rw [validate_fetch_error h hv hm hf]
  refine ⟨hv, ?_, rfl⟩
  rw [phase1_eq] at hv ⊢
  simpa using hv

set_option maxRecDepth 100000 in
/-- C8, instantiated on the example definition and a server that cannot be reached. -/
theorem validate_fetch_failure_witness :
    (exampleEnv listedOrder).Unmarshal exampleJSON = .ok exampleDefinition ∧
    (phase1 exampleDefinition).Valid = true ∧ "kubernetes" ≠ "" ∧
    GetComponentKinds ((exampleEnv listedOrder).rangeOrder 0) offlineClient "kubernetes" =
      .error ("cannot reach Meshery at http://localhost:9081: " ++
        "dial tcp 127.0.0.1:9081: connect: connection refused") ∧
    (ValidateRelationship (exampleEnv listedOrder) exampleJSON (some offlineClient)
      "kubernetes").Valid = true ∧
    (ValidateRelationship (exampleEnv listedOrder) exampleJSON (some offlineClient)
      "kubernetes").Errors = [] ∧
    (ValidateRelationship (exampleEnv listedOrder) exampleJSON (some offlineClient)
      "kubernetes").Warnings =
      (phase1 exampleDefinition).Warnings ++
        [{ Field := "components"
           Message := "could not fetch components for cross-reference: " ++
             ("cannot reach Meshery at http://localhost:9081: " ++
               "dial tcp 127.0.0.1:9081: connect: connection refused")
           Suggestion := "" }] :=
  ⟨rfl, by decide, by decide, rfl,
    validate_fetch_failure (exampleEnv listedOrder) exampleJSON exampleDefinition
      offlineClient "kubernetes" _ rfl (by decide) (by decide) rfl⟩

/-- C9: on a definition that passes phase 1, with a non-empty model name and a fetch that
succeeds, the errors of the result are, in the order of the endpoints (selector after
selector, the `from` entries of a selector before its `to` entries), one error for every
endpoint whose kind is named, whose model is absent, empty or the model name, and whose
kind is not among the fetched kinds. Each has the field of its side and the message
`component kind not found in model: ` followed by the kind, and the result is valid if
and only if there is no such endpoint. -/
theorem validate_cross_reference (env : Env) (jsonStr : String)
    (relDef : RelationshipDefinition) (c : MesheryClient) (modelName : String)
    (kinds : List String) (total : Int)
    (h : env.Unmarshal jsonStr = .ok relDef)
    (hv : (phase1 relDef).Valid = true) (hm : modelName ≠ "")
    (hf : GetComponentKinds (env.rangeOrder 0) c modelName = .ok (kinds, total)) :
    (ValidateRelationship env jsonStr (some c) modelName).Errors.map fieldMessage =
      ((endpoints (relDef.Selectors.getD [])).filter
        (fun p => isMissing kinds modelName p.2)).map
        (fun p => (p.1, "component kind not found in model: " ++ p.2.Kind.getD "")) ∧
    ((ValidateRelationship env jsonStr (some c) modelName).Valid = true ↔
      ∀ p ∈ endpoints (relDef.Selectors.getD []), isMissing kinds modelName p.2 = false) := by
  obtain ⟨es, h1, h2⟩ := validate_fetch_ok h hv hm hf
  have hnil : (phase1 relDef).Errors = [] := by
    rw [phase1_eq] at hv ⊢
    simpa using hv
  rw [h1]
  constructor
  · simp only [extend, hnil, List.nil_append]
    rw [h2]
    rfl
  · have hes : es = [] ↔
        (endpoints (relDef.Selectors.getD [])).filter
          (fun p => isMissing kinds modelName p.2) = [] := by
      rw [← @List.map_eq_nil_iff _ _ missingReport, ← h2, List.map_eq_nil_iff]
    simp only [extend, hv, Bool.true_and, List.isEmpty_iff, hes, List.filter_eq_nil_iff]
    constructor
    · intro hall p hp
      simpa using hall p hp
    · intro hall p hp
      simp [hall p hp]

set_option maxRecDepth 100000 in
/-- C9, instantiated on the example definition and the example client: of the five
endpoints only the misspelt `Depolyment` is reported. -/
theorem validate_cross_reference_witness :
    (exampleEnv listedOrder).Unmarshal exampleJSON = .ok exampleDefinition ∧
    (phase1 exampleDefinition).Valid = true ∧ "kubernetes" ≠ "" ∧
    GetComponentKinds ((exampleEnv listedOrder).rangeOrder 0) exampleClient "kubernetes" =
      .ok (["DaemonSet", "Deployment", "Pod", "Service"], 5) ∧
    (ValidateRelationship (exampleEnv listedOrder) exampleJSON (some exampleClient)
        "kubernetes").Errors.map fieldMessage =
      [("selectors.allow.from.kind", "component kind not found in model: Depolyment")] :=
  ⟨rfl, by decide, by decide, rfl,
    (validate_cross_reference (exampleEnv listedOrder) exampleJSON exampleDefinition
      exampleClient "kubernetes" ["DaemonSet", "Deployment", "Pod", "Service"] 5 rfl
      (by decide) (by decide) rfl).1⟩

/-! ## Messages -/

theorem ne_of_head_ne {a b : String} (h : a.data.head? ≠ b.data.head?) : a ≠ b := by
  intro e
  exact h (e ▸ rfl)

theorem ne_of_getLast_ne {a b : String} (h : a.data.getLast? ≠ b.data.getLast?) : a ≠ b := by
  intro e
  exact h (e ▸ rfl)

theorem selectorMsg_head (i : Nat) (msg : String) :
    (selectorMsg i msg).data.head? = some 's' := by
  simp [selectorMsg]

theorem selectorMsg_getLast (i : Nat) (msg : String) (c : Char)
    (h : msg.data.getLast? = some c) : (selectorMsg i msg).data.getLast? = some c := by
  have hd : (selectorMsg i msg).data = ("selector[" ++ itoa i ++ "]: ").data ++ msg.data := by
    simp [selectorMsg]
  rw [hd, List.getLast?_append, h]
  rfl

theorem not_presenceMessage_of_head {m : String} {c : Char} (h : m.data.head? = some c)
    (ha : c ≠ 'a') (hs : c ≠ 's') : ¬ presenceMessage m := by
  rintro (rfl | ⟨i, rfl⟩)
  · simp at h
    exact ha h.symm
  · rw [selectorMsg_head] at h
    simp at h
    exact hs h.symm

theorem not_presenceMessage_patch (i : Nat) (msg : String)
    (h : msg.data.getLast? = some 'g') : ¬ presenceMessage (selectorMsg i msg) := by
  rintro (h1 | ⟨j, h1⟩)
  · have := selectorMsg_head i msg
    rw [h1] at this
    simp at this
  · have h2 := selectorMsg_getLast i msg 'g' h
    have h3 := selectorMsg_getLast j "must have at least one 'from' or 'to' entry" 'y'
      (by decide)
    rw [h1, h3] at h2
    simp at h2

theorem not_presenceMessage_patchErrors {i : Nat} {msg : String} {items : List SelectorItem}
    (h : msg.data.getLast? = some 'g') {e : ValidationError}
    (he : e ∈ patchErrors i msg items) : ¬ presenceMessage e.Message := by
  simp only [patchErrors, List.mem_map] at he
  obtain ⟨_, _, rfl⟩ := he
  exact not_presenceMessage_patch i msg h

/-- C4: on a definition that parses, absent or empty selectors make the result invalid
with an error on the field `selectors`; and when there is exactly one selector, with
entries on one side only, no error carries the message `at least one selector is
required` or a message `selector[i]: must have at least one 'from' or 'to' entry`. -/
theorem validate_selector_presence (env : Env) (jsonStr : String)
    (relDef : RelationshipDefinition) (client : Option MesheryClient) (modelName : String)
    (h : env.Unmarshal jsonStr = .ok relDef) :
    ((relDef.Selectors = none ∨ relDef.Selectors = some []) →
      (ValidateRelationship env jsonStr client modelName).Valid = false ∧
      ∃ e ∈ (ValidateRelationship env jsonStr client modelName).Errors,
        e.Field = "selectors") ∧
    (∀ sel : SelectorSetItem, relDef.Selectors = some [sel] →
      ((sel.Allow.From ≠ [] ∧ sel.Allow.To = []) ∨
        (sel.Allow.From = [] ∧ sel.Allow.To ≠ [])) →
      ∀ e ∈ (ValidateRelationship env jsonStr client modelName).Errors,
        e.Message ≠ "at least one selector is required" ∧
        ∀ i, e.Message ≠ selectorMsg i "must have at least one 'from' or 'to' entry") := by
  obtain ⟨es, ws, hr, hes, hf, _⟩ := validate_shape h client modelName
  rw [hr]
  constructor
  · intro hsel
    have hc : selectorCheckErrors relDef =
        [{ Field := "selectors"
           Message := "at least one selector is required"
           Suggestion := "" }] := by
      rcases hsel with hsel | hsel <;> simp [selectorCheckErrors, hsel]
    constructor
    · simp [phase1Errors, hc]
    · refine ⟨{ Field := "selectors"
                Message := "at least one selector is required"
                Suggestion := "" }, ?_, rfl⟩
      simp [phase1Errors, hc]
  · intro sel hsel hside e he
    have hnot : ¬ presenceMessage e.Message := by
      simp only [phase1Errors, List.mem_append] at he
      rcases he with (he | he | he | he) | he
      · unfold schemaVersionErrors at he
        split at he
        · simp only [List.mem_singleton] at he
          rw [he]
          exact not_presenceMessage_of_head (c := 'i') (by simp) (by decide) (by decide)
        · simp at he
      · unfold kindErrors at he
        split at he
        · simp at he
        · simp only [List.mem_singleton] at he
          rw [he]
          exact not_presenceMessage_of_head (c := 'i') (by simp) (by decide) (by decide)
      · unfold modelNameErrors at he
        split at he
        · simp only [List.mem_singleton] at he
          rw [he]
          exact not_presenceMessage_of_head (c := 'm') (by simp) (by decide) (by decide)
        · simp at he
      · have hne : ¬ (sel.Allow.From.length = 0 ∧ sel.Allow.To.length = 0) := by
          rcases hside with ⟨h1, _⟩ | ⟨_, h2⟩
          · intro hh
            exact h1 (List.length_eq_zero.mp hh.1)
          · intro hh
            exact h2 (List.length_eq_zero.mp hh.2)
        simp only [selectorCheckErrors, hsel, List.length_singleton, selectorsErrors,
          selectorErrors, List.append_nil] at he
        simp only [beq_iff_eq, Bool.and_eq_true, hne, one_ne_zero, if_false,
          List.nil_append, List.mem_append] at he
        rcases he with he | he
        · exact not_presenceMessage_patchErrors (by decide) he
        · exact not_presenceMessage_patchErrors (by decide) he
      · obtain ⟨p, hp, _⟩ := hf e he
        have hmsg : e.Message = "component kind not found in model: " ++ p.2.Kind.getD "" :=
          congrArg Prod.snd hp
        rw [hmsg]
        exact not_presenceMessage_of_head (c := 'c') (by simp) (by decide) (by decide)
    exact ⟨fun hh => hnot (Or.inl hh), fun i hh => hnot (Or.inr ⟨i, hh⟩)⟩

set_option maxRecDepth 100000 in
/-- C4, instantiated: the text `\x7b\x7d` has no selectors, and `oneSidedJSON` has one
selector with a `from` entry and no `to` entry. -/
theorem validate_selector_presence_witness :
    ((exampleEnv listedOrder).Unmarshal "\x7b\x7d" = .ok zeroDefinition ∧
      (zeroDefinition.Selectors = none ∨ zeroDefinition.Selectors = some []) ∧
      (ValidateRelationship (exampleEnv listedOrder) "\x7b\x7d" none "").Valid = false ∧
      ∃ e ∈ (ValidateRelationship (exampleEnv listedOrder) "\x7b\x7d" none "").Errors,
        e.Field = "selectors") ∧
    ((exampleEnv listedOrder).Unmarshal oneSidedJSON = .ok oneSidedDefinition ∧
      ∀ e ∈ (ValidateRelationship (exampleEnv listedOrder) oneSidedJSON
          (some exampleClient) "kubernetes").Errors,
        e.Message ≠ "at least one selector is required" ∧
        ∀ i, e.Message ≠ selectorMsg i "must have at least one 'from' or 'to' entry") :=
  ⟨⟨rfl, Or.inl rfl,
      (validate_selector_presence (exampleEnv listedOrder) "\x7b\x7d" zeroDefinition none ""
        rfl).1 (Or.inl rfl)⟩,
    ⟨rfl,
      (validate_selector_presence (exampleEnv listedOrder) oneSidedJSON oneSidedDefinition
        (some exampleClient) "kubernetes" rfl).2
        { Allow := { From := [{ Kind := some "Pod", Model := none, Patch := none }]
                     To := [] } }
        rfl (Or.inl ⟨by decide, rfl⟩)⟩⟩

/-! ## The rendering of the selector index -/

theorem itoaLoop_data (fuel i : Nat) (s : String) (h : i ≤ fuel) :
    (itoaLoop fuel i s).data =
      (Nat.digits 10 i).reverse.map (fun d => Char.ofNat (48 + d)) ++ s.data := by
  induction fuel generalizing i s with
  | zero =>
    have : i = 0 := by omega
    subst this
    simp [itoaLoop]
  | succ fuel ih =>
    by_cases hi : i > 0
    · have hlt : i / 10 < i := Nat.div_lt_self hi (by norm_num)
      have hle : i / 10 ≤ fuel := by omega
      have hd : Nat.digits 10 i = i % 10 :: Nat.digits 10 (i / 10) :=
        Nat.digits_def' (by norm_num) hi
      simp only [itoaLoop, hi, if_true]
      rw [ih (i / 10) _ hle, hd]
      simp [String.singleton]
    · have : i = 0 := by omega
      subst this
      simp [itoaLoop]

theorem itoa_data (i : Nat) : (itoa i).data = decimal i := by
  unfold itoa decimal
  by_cases hi : i = 0
  · simp [hi]
  · simp only [beq_iff_eq, hi, if_false]
    rw [itoaLoop_data i i "" (le_refl i)]
    simp

theorem digit_toNat (d : Nat) (hd : d < 10) : (Char.ofNat (48 + d)).toNat = 48 + d := by
  interval_cases d <;> rfl

theorem mem_decimal_lt {i : Nat} {c : Char} (hc : c ∈ decimal i) : c.toNat < 58 := by
  unfold decimal at hc
  split at hc
  · simp only [List.mem_singleton] at hc
    rw [hc]
    decide
  · simp only [List.mem_map, List.mem_reverse] at hc
    obtain ⟨d, hd, rfl⟩ := hc
    have := Nat.digits_lt_base (by norm_num : 1 < 10) hd
    rw [digit_toNat d this]
    omega

/-- The number that a list of decimal digit characters denotes. -/
theorem decimal_value (i : Nat) :
    Nat.ofDigits 10 (((decimal i).map (fun c => c.toNat - 48)).reverse) = i := by
  unfold decimal
  by_cases hi : i = 0
  · subst hi
    simp [Nat.ofDigits]
  · simp only [hi, if_false, List.map_map, List.map_reverse, List.reverse_reverse]
    have : (Nat.digits 10 i).map ((fun c : Char => c.toNat - 48) ∘
        (fun d => Char.ofNat (48 + d))) = Nat.digits 10 i := by
      conv_rhs => rw [← List.map_id (Nat.digits 10 i)]
      apply List.map_congr_left
      intro d hd
      have := Nat.digits_lt_base (by norm_num : 1 < 10) hd
      simp [digit_toNat d this]
    rw [this]
    exact Nat.ofDigits_digits 10 i

theorem itoa_injective {i j : Nat} (h : (itoa i).data = (itoa j).data) : i = j := by
  rw [itoa_data, itoa_data] at h
  have := congrArg
    (fun l : List Char => Nat.ofDigits 10 ((l.map (fun c => c.toNat - 48)).reverse)) h
  simpa [decimal_value] using this

theorem append_bracket_cancel {a b x y : List Char} (ha : ']' ∉ a) (hb : ']' ∉ b)
    (h : a ++ ']' :: x = b ++ ']' :: y) : a = b ∧ x = y := by
  induction a generalizing b with
  | nil =>
    cases b with
    | nil => simpa using h
    | cons c b' =>
      simp only [List.nil_append, List.cons_append, List.cons.injEq] at h
      exact absurd h.1 (fun e => hb (e ▸ List.mem_cons_self _ _))
  | cons c a' ih =>
    cases b with
    | nil =>
      simp only [List.nil_append, List.cons_append, List.cons.injEq] at h
      exact absurd h.1 (fun e => ha (e ▸ List.mem_cons_self _ _))
    | cons d b' =>
      simp only [List.cons_append, List.cons.injEq] at h
      obtain ⟨h1, h2⟩ := ih (fun hm => ha (List.mem_cons_of_mem _ hm))
        (fun hm => hb (List.mem_cons_of_mem _ hm)) h.2
      exact ⟨by rw [h.1, h1], h2⟩

theorem bracket_not_mem_itoa (i : Nat) : ']' ∉ (itoa i).data := by
  intro hm
  rw [itoa_data] at hm
  have := mem_decimal_lt hm
  revert this
  decide

theorem selectorMsg_inj {i j : Nat} {m m' : String}
    (h : selectorMsg i m = selectorMsg j m') : i = j ∧ m = m' := by
  have hd := congrArg String.data h
  simp only [selectorMsg, String.data_append] at hd
  have hd' : (itoa i).data ++ ']' :: (':' :: ' ' :: m.data) =
      (itoa j).data ++ ']' :: (':' :: ' ' :: m'.data) := by
    simpa using hd
  obtain ⟨h1, h2⟩ := append_bracket_cancel (bracket_not_mem_itoa i) (bracket_not_mem_itoa j) hd'
  refine ⟨itoa_injective h1, ?_⟩
  simp only [List.cons.injEq, true_and] at h2
  exact String.ext h2

/-! ## Counting the patch-consistency errors -/

theorem isPatchError_selectorMsg (i j : Nat) (m f s : String) :
    isPatchError i { Field := f, Message := selectorMsg j m, Suggestion := s } =
      decide (j = i ∧ (m = "from patch is set but patchStrategy is missing" ∨
        m = "to patch is set but patchStrategy is missing")) := by
  unfold isPatchError
  rw [Bool.eq_iff_iff]
  simp only [Bool.or_eq_true, beq_iff_eq, decide_eq_true_eq]
  constructor
  · rintro (h | h)
    · obtain ⟨h1, h2⟩ := selectorMsg_inj h
      exact ⟨h1, Or.inl h2⟩
    · obtain ⟨h1, h2⟩ := selectorMsg_inj h
      exact ⟨h1, Or.inr h2⟩
  · rintro ⟨rfl, h | h⟩
    · exact Or.inl (by rw [h])
    · exact Or.inr (by rw [h])

theorem isPatchError_head {i : Nat} {e : ValidationError} (h : isPatchError i e = true) :
    e.Message.data.head? = some 's' := by
  unfold isPatchError at h
  simp only [Bool.or_eq_true, beq_iff_eq] at h
  rcases h with h | h <;> rw [h] <;> exact selectorMsg_head _ _

theorem countP_patchErrors (i j : Nat) (m : String) (items : List SelectorItem)
    (hm : m = "from patch is set but patchStrategy is missing" ∨
      m = "to patch is set but patchStrategy is missing") :
    (patchErrors j m items).countP (isPatchError i) =
      if j = i then (items.filter patchStrategyMissing).length else 0 := by
  unfold patchErrors
  generalize items.filter patchStrategyMissing = l
  induction l with
  | nil => simp
  | cons x rest ih =>
    rw [List.map_cons, List.countP_cons, ih, isPatchError_selectorMsg]
    by_cases hji : j = i
    · simp [hji, hm]
    · simp [hji]

theorem countP_selectorErrors (i j : Nat) (sel : SelectorSetItem) :
    (selectorErrors j sel).countP (isPatchError i) =
      if j = i then patchlessEndpoints sel else 0 := by
  unfold selectorErrors patchlessEndpoints
  rw [List.countP_append, List.countP_append,
    countP_patchErrors i j _ _ (Or.inl rfl), countP_patchErrors i j _ _ (Or.inr rfl)]
  have h0 : (if (sel.Allow.From.length == 0 && sel.Allow.To.length == 0) = true then
        [({ Field := "selectors"
            Message := selectorMsg j "must have at least one 'from' or 'to' entry"
            Suggestion := "" } : ValidationError)]
      else []).countP (isPatchError i) = 0 := by
    split
    · rw [List.countP_cons, isPatchError_selectorMsg]
      simp
    · rfl
  rw [h0]
  by_cases hji : j = i <;> simp [hji]

theorem countP_selectorsErrors (i j : Nat) (sels : List SelectorSetItem) :
    (selectorsErrors j sels).countP (isPatchError i) =
      if j ≤ i then ((sels[i - j]?).map patchlessEndpoints).getD 0 else 0 := by
  induction sels generalizing j with
  | nil => simp [selectorsErrors]
  | cons sel rest ih =>
    rw [selectorsErrors, List.countP_append, countP_selectorErrors, ih]
    by_cases hji : j = i
    · subst hji
      simp
    · by_cases hlt : j < i
      · have h1 : j ≤ i := by omega
        have h2 : j + 1 ≤ i := by omega
        have h3 : i - j = (i - (j + 1)) + 1 := by omega
        simp only [hji, if_false, h1, h2, if_true, Nat.zero_add]
        rw [h3, List.getElem?_cons_succ]
      · have h1 : ¬ j ≤ i := by omega
        have h2 : ¬ j + 1 ≤ i := by omega
        simp [hji, h1, h2]

theorem countP_eq_zero_of_head {i : Nat} {l : List ValidationError}
    (h : ∀ e ∈ l, e.Message.data.head? ≠ some 's') : l.countP (isPatchError i) = 0 := by
  rw [List.countP_eq_zero]
  intro e he hp
  exact h e he (isPatchError_head hp)

theorem countP_phase1Errors (i : Nat) (relDef : RelationshipDefinition) :
    (phase1Errors relDef).countP (isPatchError i) =
      (((relDef.Selectors.getD [])[i]?).map patchlessEndpoints).getD 0 := by
  have h1 : (schemaVersionErrors relDef).countP (isPatchError i) = 0 := by
    apply countP_eq_zero_of_head
    intro e he
    unfold schemaVersionErrors at he
    split at he
    · simp only [List.mem_singleton] at he
      rw [he]
      simp
    · simp at he
  have h2 : (kindErrors relDef).countP (isPatchError i) = 0 := by
    apply countP_eq_zero_of_head
    intro e he
    unfold kindErrors at he
    split at he
    · simp at he
    · simp only [List.mem_singleton] at he
      rw [he]
      simp
  have h3 : (modelNameErrors relDef).countP (isPatchError i) = 0 := by
    apply countP_eq_zero_of_head
    intro e he
    unfold modelNameErrors at he
    split at he
    · simp only [List.mem_singleton] at he
      rw [he]
      simp
    · simp at he
  have hreq : [({ Field := "selectors"
                  Message := "at least one selector is required"
                  Suggestion := "" } : ValidationError)].countP (isPatchError i) = 0 := by
    apply countP_eq_zero_of_head
    intro e he
    simp only [List.mem_singleton] at he
    rw [he]
    simp
  have h4 : (selectorCheckErrors relDef).countP (isPatchError i) =
      (((relDef.Selectors.getD [])[i]?).map patchlessEndpoints).getD 0 := by
    unfold selectorCheckErrors
    cases relDef.Selectors with
    | none => simpa using hreq
    | some sels =>
      by_cases hl : sels.length = 0
      · have : sels = [] := List.length_eq_zero.mp hl
        subst this
        simpa using hreq
      · simp only [beq_iff_eq, hl, if_false, Option.getD_some]
        rw [countP_selectorsErrors]
        simp
  simp only [phase1Errors, List.countP_append, h1, h2, h3, h4, Nat.zero_add]

theorem mem_selectorsErrors {j k : Nat} {sels : List SelectorSetItem} {sel : SelectorSetItem}
    {e : ValidationError} (hk : sels[k]? = some sel) (he : e ∈ selectorErrors (j + k) sel) :
    e ∈ selectorsErrors j sels := by
  induction sels generalizing j k with
  | nil => simp at hk
  | cons s rest ih =>
    rw [selectorsErrors, List.mem_append]
    cases k with
    | zero =>
      simp only [List.getElem?_cons_zero, Option.some.injEq] at hk
      subst hk
      exact Or.inl he
    | succ k =>
      rw [List.getElem?_cons_succ] at hk
      refine Or.inr (ih hk ?_)
      have : j + 1 + k = j + (k + 1) := by omega
      rw [this]
      exact he

theorem mem_phase1Errors_of_selector {relDef : RelationshipDefinition} {i : Nat}
    {sel : SelectorSetItem} {e : ValidationError}
    (hi : (relDef.Selectors.getD [])[i]? = some sel) (he : e ∈ selectorErrors i sel) :
    e ∈ phase1Errors relDef := by
  have : e ∈ selectorCheckErrors relDef := by
    unfold selectorCheckErrors
    cases hs : relDef.Selectors with
    | none => simp [hs] at hi
    | some sels =>
      rw [hs] at hi
      simp only [Option.getD_some] at hi
      have hl : sels.length ≠ 0 := by
        intro hl
        rw [List.length_eq_zero.mp hl] at hi
        simp at hi
      simp only [beq_iff_eq, hl, if_false]
      exact mem_selectorsErrors hi (by simpa using he)
  simp [phase1Errors, this]

theorem mem_patchErrors {i : Nat} {msg : String} {items : List SelectorItem}
    {item : SelectorItem} (hm : item ∈ items) (hp : patchStrategyMissing item = true) :
    ({ Field := "selectors", Message := selectorMsg i msg, Suggestion := "" } :
      ValidationError) ∈ patchErrors i msg items := by
  simp only [patchErrors, List.mem_map, List.mem_filter]
  exact ⟨item, ⟨hm, hp⟩, trivial⟩

theorem selectorMsg_begins (i : Nat) (msg : String) :
    ("selector[" ++ itoa i ++ "]").data <+: (selectorMsg i msg).data := by
  refine ⟨(": " ++ msg).data, ?_⟩
  simp [selectorMsg]

/-- C5: on a definition that parses, let `sel` be the selector of index `i`. Every entry
of its `from` list, and every entry of its `to` list, that has a patch without a strategy
makes the result invalid and puts in the errors the patch-consistency error of that side,
whose message begins with `selector[`, the decimal digits of `i` (what `itoa` returns)
and `]`. The number of patch-consistency errors of selector `i` in the result is the
number of such entries of `sel`. -/
theorem validate_patch_consistency (env : Env) (jsonStr : String)
    (relDef : RelationshipDefinition) (client : Option MesheryClient) (modelName : String)
    (i : Nat) (sel : SelectorSetItem)
    (h : env.Unmarshal jsonStr = .ok relDef)
    (hi : (relDef.Selectors.getD [])[i]? = some sel) :
    (∀ item ∈ sel.Allow.From, patchStrategyMissing item = true →
      (ValidateRelationship env jsonStr client modelName).Valid = false ∧
      ∃ e ∈ (ValidateRelationship env jsonStr client modelName).Errors,
        e.Field = "selectors" ∧
        e.Message = "selector[" ++ itoa i ++ "]: " ++
          "from patch is set but patchStrategy is missing" ∧
        ("selector[" ++ itoa i ++ "]").data <+: e.Message.data) ∧
    (∀ item ∈ sel.Allow.To, patchStrategyMissing item = true →
      (ValidateRelationship env jsonStr client modelName).Valid = false ∧
      ∃ e ∈ (ValidateRelationship env jsonStr client modelName).Errors,
        e.Field = "selectors" ∧
        e.Message = "selector[" ++ itoa i ++ "]: " ++
          "to patch is set but patchStrategy is missing" ∧
        ("selector[" ++ itoa i ++ "]").data <+: e.Message.data) ∧
    (ValidateRelationship env jsonStr client modelName).Errors.countP (isPatchError i) =
      (sel.Allow.From.filter patchStrategyMissing).length +
        (sel.Allow.To.filter patchStrategyMissing).length ∧
    (itoa i).data = decimal i := by
  obtain ⟨es, ws, hr, hes, hf, _⟩ := validate_shape h client modelName
  rw [hr]
  have hmem : ∀ e : ValidationError, e ∈ selectorErrors i sel →
      (phase1Errors relDef ++ es).isEmpty = false ∧ e ∈ phase1Errors relDef ++ es := by
    intro e he
    have hm := mem_phase1Errors_of_selector hi he
    refine ⟨?_, List.mem_append_left _ hm⟩
    cases hp : phase1Errors relDef with
    | nil => rw [hp] at hm; simp at hm
    | cons a l => rfl
  refine ⟨?_, ?_, ?_, itoa_data i⟩
  · intro item hitem hp
    have he : ({ Field := "selectors"
                 Message := selectorMsg i "from patch is set but patchStrategy is missing"
                 Suggestion := "" } : ValidationError) ∈ selectorErrors i sel := by
      unfold selectorErrors
      exact List.mem_append_right _ (List.mem_append_left _ (mem_patchErrors hitem hp))
    obtain ⟨h1, h2⟩ := hmem _ he
    exact ⟨h1, _, h2, rfl, rfl, selectorMsg_begins i _⟩
  · intro item hitem hp
    have he : ({ Field := "selectors"
                 Message := selectorMsg i "to patch is set but patchStrategy is missing"
                 Suggestion := "" } : ValidationError) ∈ selectorErrors i sel := by
      unfold selectorErrors
      exact List.mem_append_right _ (List.mem_append_right _ (mem_patchErrors hitem hp))
    obtain ⟨h1, h2⟩ := hmem _ he
    exact ⟨h1, _, h2, rfl, rfl, selectorMsg_begins i _⟩
  · have hes0 : es.countP (isPatchError i) = 0 := by
      apply countP_eq_zero_of_head
      intro e he
      obtain ⟨p, hp, _⟩ := hf e he
      have hmsg : e.Message = "component kind not found in model: " ++ p.2.Kind.getD "" :=
        congrArg Prod.snd hp
      rw [hmsg]
      simp
    show (phase1Errors relDef ++ es).countP (isPatchError i) = _
    rw [List.countP_append, hes0, countP_phase1Errors, hi]
    rfl

set_option maxRecDepth 100000 in
/-- C5, instantiated on `patchJSON` and its second selector (index 1), which has one such
entry on each side: the result is invalid, holds the error of the `from` side, and has
two patch-consistency errors for that selector. -/
theorem validate_patch_consistency_witness :
    (exampleEnv listedOrder).Unmarshal patchJSON = .ok patchDefinition ∧
    ((ValidateRelationship (exampleEnv listedOrder) patchJSON (some exampleClient)
      "kubernetes").Valid = false ∧
    (∃ e ∈ (ValidateRelationship (exampleEnv listedOrder) patchJSON (some exampleClient)
        "kubernetes").Errors,
      e.Field = "selectors" ∧
      e.Message = "selector[" ++ itoa 1 ++ "]: " ++
        "from patch is set but patchStrategy is missing" ∧
      ("selector[" ++ itoa 1 ++ "]").data <+: e.Message.data)) ∧
    (ValidateRelationship (exampleEnv listedOrder) patchJSON (some exampleClient)
      "kubernetes").Errors.countP (isPatchError 1) = 2 :=
  ⟨rfl,
    (validate_patch_consistency (exampleEnv listedOrder) patchJSON patchDefinition
      (some exampleClient) "kubernetes" 1
      { Allow :=
          { From := [{ Kind := some "Pod", Model := none
                       Patch := some { PatchStrategy := none } }]
            To :=
              [{ Kind := some "Node", Model := none
                 Patch := some { PatchStrategy := some "" } },
               { Kind := some "Node", Model := none
                 Patch := some { PatchStrategy := some "replace" } }] } }
      rfl rfl).1
      { Kind := some "Pod", Model := none, Patch := some { PatchStrategy := none } }
      (by decide) (by decide),
    (validate_patch_consistency (exampleEnv listedOrder) patchJSON patchDefinition
      (some exampleClient) "kubernetes" 1
      { Allow :=
          { From := [{ Kind := some "Pod", Model := none
                       Patch := some { PatchStrategy := none } }]
            To :=
              [{ Kind := some "Node", Model := none
                 Patch := some { PatchStrategy := some "" } },
               { Kind := some "Node", Model := none
                 Patch := some { PatchStrategy := some "replace" } }] } }
      rfl rfl).2.2.1⟩

/-! ## The fuzzy matcher -/

theorem closest_foldl (ToLower : String → String) (target : String) (l : List String)
    (acc : String × Int)
    (hacc : acc.2 < 0 ∨ acc.2 = (distance ToLower target acc.1 : Nat)) :
    (l.foldl (closestStep ToLower (ToLower target)) acc = acc ∨
      ((l.foldl (closestStep ToLower (ToLower target)) acc).1 ∈ l ∧
        (l.foldl (closestStep ToLower (ToLower target)) acc).2 =
          (distance ToLower target
            (l.foldl (closestStep ToLower (ToLower target)) acc).1 : Nat))) ∧
    (∀ k ∈ l, (l.foldl (closestStep ToLower (ToLower target)) acc).2 ≤
      (distance ToLower target k : Nat)) ∧
    (0 ≤ acc.2 → 0 ≤ (l.foldl (closestStep ToLower (ToLower target)) acc).2 ∧
      (l.foldl (closestStep ToLower (ToLower target)) acc).2 ≤ acc.2) ∧
    (l ≠ [] → 0 ≤ (l.foldl (closestStep ToLower (ToLower target)) acc).2) := by
  induction l generalizing acc with
  | nil => simp
  | cons k rest ih =>
    rw [List.foldl_cons]
    have hd : (0 : Int) ≤ (distance ToLower target k : Nat) := Int.natCast_nonneg _
    by_cases hc : acc.2 < 0 ∨ ((distance ToLower target k : Nat) : Int) < acc.2
    · have hstep : closestStep ToLower (ToLower target) acc k =
          (k, ((distance ToLower target k : Nat) : Int)) := by
        simp only [closestStep, distance] at hc ⊢
        simp [hc]
      rw [hstep]
      obtain ⟨a, b, c, _⟩ := ih (k, ((distance ToLower target k : Nat) : Int)) (Or.inr rfl)
      have c' := c hd
      refine ⟨?_, ?_, ?_, ?_⟩
      · rcases a with a | a
        · right
          rw [a]
          exact ⟨List.mem_cons_self _ _, rfl⟩
        · right
          exact ⟨List.mem_cons_of_mem _ a.1, a.2⟩
      · intro k' hk'
        rcases List.mem_cons.mp hk' with rfl | hk'
        · exact c'.2
        · exact b k' hk'
      · intro h0
        refine ⟨c'.1, ?_⟩
        have : ((distance ToLower target k : Nat) : Int) < acc.2 := by
          rcases hc with hc | hc
          · omega
          · exact hc
        have := c'.2
        simp only at this
        omega
      · intro _
        exact c'.1
    · have hstep : closestStep ToLower (ToLower target) acc k = acc := by
        simp only [closestStep, distance] at hc ⊢
        simp [hc]
      rw [hstep]
      simp only [not_or, not_lt] at hc
      obtain ⟨a, b, c, _⟩ := ih acc hacc
      have c' := c hc.1
      refine ⟨?_, ?_, fun _ => c', fun _ => c'.1⟩
      · rcases a with a | a
        · exact Or.inl a
        · exact Or.inr ⟨List.mem_cons_of_mem _ a.1, a.2⟩
      · intro k' hk'
        rcases List.mem_cons.mp hk' with rfl | hk'
        · exact le_trans c'.2 hc.2
        · exact b k' hk'

theorem findClosestKind_rule1 {ToLower : String → String} {target : String} {ks : KindSet}
    {k : String}
    (h0 : (ks.order 0).find? (fun k => ToLower k == ToLower target) = some k) :
    findClosestKind ToLower target ks = k := by
  unfold findClosestKind
  simp only [h0]

theorem findClosestKind_rule2 {ToLower : String → String} {target : String} {ks : KindSet}
    {k : String}
    (h0 : (ks.order 0).find? (fun k => ToLower k == ToLower target) = none)
    (h1 : (ks.order 1).find? (fun k =>
      HasPrefix (ToLower k) (ToLower target) || HasPrefix (ToLower target) (ToLower k)) =
        some k) :
    findClosestKind ToLower target ks = k := by
  unfold findClosestKind
  simp only [h0, h1]

theorem findClosestKind_rule3 {ToLower : String → String} {target : String}
    {ks : KindSet}
    (h0 : (ks.order 0).find? (fun k => ToLower k == ToLower target) = none)
    (h1 : (ks.order 1).find? (fun k =>
      HasPrefix (ToLower k) (ToLower target) || HasPrefix (ToLower target) (ToLower k)) =
        none) :
    findClosestKind ToLower target ks =
      if 0 ≤ ((ks.order 2).foldl (closestStep ToLower (ToLower target)) ("", -1)).2 ∧
          ((ks.order 2).foldl (closestStep ToLower (ToLower target)) ("", -1)).2 ≤
            ((len target / 2 + 1 : Nat) : Int) then
        ((ks.order 2).foldl (closestStep ToLower (ToLower target)) ("", -1)).1
      else "" := by
  unfold findClosestKind
  simp only [h0, h1, ge_iff_le, Bool.and_eq_true, decide_eq_true_eq]

/-- What `findClosestKind` returns, whatever the order of its loops: a known kind that
qualifies under the deciding rule, or the empty string when no known kind qualifies. -/
theorem findClosestKind_spec (ToLower : String → String) (target : String) (ks : KindSet)
    (h : ∀ n, (ks.order n).Perm ks.keys) :
    Qualifies ToLower target ks.keys (findClosestKind ToLower target ks) ∨
    (findClosestKind ToLower target ks = "" ∧
      ∀ k ∈ ks.keys, ¬ Qualifies ToLower target ks.keys k) := by
  have m0 : ∀ k, k ∈ ks.order 0 ↔ k ∈ ks.keys := fun k => (h 0).mem_iff
  have m1 : ∀ k, k ∈ ks.order 1 ↔ k ∈ ks.keys := fun k => (h 1).mem_iff
  have m2 : ∀ k, k ∈ ks.order 2 ↔ k ∈ ks.keys := fun k => (h 2).mem_iff
  cases h0 : (ks.order 0).find? (fun k => ToLower k == ToLower target) with
  | some k =>
    left
    rw [findClosestKind_rule1 h0]
    exact ⟨(m0 k).mp (List.mem_of_find?_eq_some h0), Or.inl (List.find?_some h0)⟩
  | none =>
    have e0 : ∀ k' ∈ ks.keys, exactMatch ToLower target k' = false := by
      intro k' hk'
      have := List.find?_eq_none.mp h0 k' ((m0 k').mpr hk')
      simpa [exactMatch] using this
    cases h1 : (ks.order 1).find? (fun k =>
        HasPrefix (ToLower k) (ToLower target) || HasPrefix (ToLower target) (ToLower k)) with
    | some k =>
      left
      rw [findClosestKind_rule2 h0 h1]
      exact ⟨(m1 k).mp (List.mem_of_find?_eq_some h1),
        Or.inr (Or.inl ⟨e0, List.find?_some h1⟩)⟩
    | none =>
      have e1 : ∀ k' ∈ ks.keys, prefixMatch ToLower target k' = false := by
        intro k' hk'
        have := List.find?_eq_none.mp h1 k' ((m1 k').mpr hk')
        simpa [prefixMatch] using this
      obtain ⟨a, b, _, d⟩ := closest_foldl ToLower target (ks.order 2) ("", -1)
        (Or.inl (by decide))
      rw [findClosestKind_rule3 h0 h1]
      generalize (ks.order 2).foldl (closestStep ToLower (ToLower target)) ("", -1) = r
        at a b d
      have none_qualifies : (∀ k ∈ ks.keys,
          ((len target / 2 + 1 : Nat) : Int) < (distance ToLower target k : Nat)) →
          ∀ k ∈ ks.keys, ¬ Qualifies ToLower target ks.keys k := by
        intro hfar k hk hq
        rcases hq.2 with hq | hq | hq
        · rw [e0 k hk] at hq
          exact Bool.false_ne_true hq
        · rw [e1 k hk] at hq
          exact Bool.false_ne_true hq.2
        · have := hfar k hk
          have := hq.2.2.2
          omega
      by_cases hcond : 0 ≤ r.2 ∧ r.2 ≤ ((len target / 2 + 1 : Nat) : Int)
      · have hne : r ≠ ("", -1) := by
          intro e
          rw [e] at hcond
          exact absurd hcond.1 (by decide)
        rcases a with a | a
        · exact absurd a hne
        · left
          rw [if_pos hcond]
          refine ⟨(m2 _).mp a.1, Or.inr (Or.inr ⟨e0, e1, ?_, ?_⟩)⟩
          · intro k' hk'
            have := b k' ((m2 k').mpr hk')
            rw [a.2] at this
            exact_mod_cast this
          · have := hcond.2
            rw [a.2] at this
            exact_mod_cast this
      · right
        rw [if_neg hcond]
        refine ⟨rfl, none_qualifies ?_⟩
        intro k hk
        have hk2 := (m2 k).mpr hk
        have h0r := d (List.ne_nil_of_mem hk2)
        have := b k hk2
        have hgt : ((len target / 2 + 1 : Nat) : Int) < r.2 := by
          by_contra hle
          exact hcond ⟨h0r, not_lt.mp hle⟩
        omega

/-! ## The order of the `range` loops -/

theorem foldl_append_singleton (l acc : List String) :
    l.foldl (fun kinds k => kinds ++ [k]) acc = acc ++ l := by
  induction l generalizing acc with
  | nil => simp
  | cons x rest ih => simp [ih]

theorem isMissing_eq_false_of_otherModel {kinds : List String} {modelName : String}
    {item : SelectorItem} (h : otherModel item modelName = true) :
    isMissing kinds modelName item = false := by
  unfold otherModel at h
  unfold isMissing
  cases hm : item.Model with
  | none =>
    rw [hm] at h
    exact absurd h Bool.false_ne_true
  | some m =>
    rw [hm] at h
    simp only [Bool.and_eq_true, bne_iff_ne, ne_eq] at h
    simp [h.1, h.2]

theorem isMissing_eq_false_of_kind {kinds : List String} {modelName : String}
    {item : SelectorItem}
    (h : item.Kind = none ∨ item.Kind = some "" ∨ item.Kind = some "*") :
    isMissing kinds modelName item = false := by
  unfold isMissing
  rcases h with h | h | h <;> simp [h]

theorem validate_fetch_ok_eq {env : Env} {jsonStr : String} {relDef : RelationshipDefinition}
    (h : env.Unmarshal jsonStr = .ok relDef) {c : MesheryClient} {modelName : String}
    {kinds : List String} {total : Int}
    (hv : (phase1 relDef).Valid = true) (hm : modelName ≠ "")
    (hf : GetComponentKinds (env.rangeOrder 0) c modelName = .ok (kinds, total)) :
    ValidateRelationship env jsonStr (some c) modelName =
      ((relDef.Selectors.getD []).foldl (crossCheckSelector env.ToLower modelName)
        (phase1 relDef, makeKindSet env.rangeOrder kinds)).1 := by
  cases hsel : relDef.Selectors with
  | none => simp [ValidateRelationship, h, hv, hm, hf, hsel]
  | some sels => simp [ValidateRelationship, h, hv, hm, hf, hsel]

/-- A definition that passes phase 1 and has no endpoint for phase 2 to report is valid
and without errors, whatever the client and the outcome of the fetch are. -/
theorem validate_nothing_missing {env : Env} {jsonStr : String}
    {relDef : RelationshipDefinition} (h : env.Unmarshal jsonStr = .ok relDef)
    (hv : (phase1 relDef).Valid = true) {modelName : String}
    (hno : ∀ kinds : List String, ∀ p ∈ endpoints (relDef.Selectors.getD []),
      isMissing kinds modelName p.2 = false)
    (client : Option MesheryClient) :
    (ValidateRelationship env jsonStr client modelName).Valid = true ∧
    (ValidateRelationship env jsonStr client modelName).Errors = [] := by
  have hnil : (phase1 relDef).Errors = [] := by
    rw [phase1_eq] at hv ⊢
    simpa using hv
  by_cases hs : client = none ∨ (phase1 relDef).Valid = false ∨ modelName = ""
  · rw [validate_skip h hs]
    exact ⟨hv, hnil⟩
  · simp only [not_or] at hs
    obtain ⟨hc, _, hm⟩ := hs
    obtain ⟨c, rfl⟩ := Option.ne_none_iff_exists'.mp hc
    cases hf : GetComponentKinds (env.rangeOrder 0) c modelName with
    | error err =>
      rw [validate_fetch_error h hv hm hf]
      exact ⟨hv, hnil⟩
    | ok r =>
      obtain ⟨kinds, total⟩ := r
      obtain ⟨es, h1, h2⟩ := validate_fetch_ok h hv hm hf
      have hfil : (endpoints (relDef.Selectors.getD [])).filter
          (fun p => isMissing kinds modelName p.2) = [] := by
        rw [List.filter_eq_nil_iff]
        intro p hp
        simp [hno kinds p hp]
      rw [hfil] at h2
      have hes : es = [] := by simpa using h2
      rw [h1, hes, extend_nil]
      exact ⟨hv, hnil⟩

/-- C11, as the code has it: an endpoint whose model name is present, non-empty and
different from the model-name argument is passed over by the loop of phase 2, for every
kind set; after a clean phase 1 and a successful fetch the errors of the result are the
reports of the endpoints that are not of this sort and have a missing kind. -/
theorem validate_other_model_exempt (env : Env) (jsonStr : String)
    (relDef : RelationshipDefinition) (c : MesheryClient) (modelName : String)
    (kinds : List String) (total : Int)
    (h : env.Unmarshal jsonStr = .ok relDef)
    (hv : (phase1 relDef).Valid = true) (hm : modelName ≠ "")
    (hf : GetComponentKinds (env.rangeOrder 0) c modelName = .ok (kinds, total)) :
    (∀ (item : SelectorItem) (m : ModelReference), item.Model = some m → m.Name ≠ "" →
      m.Name ≠ modelName →
      ∀ (field : String) (st : ValidationResult × KindSet),
        crossCheck env.ToLower modelName field st item = st) ∧
    (ValidateRelationship env jsonStr (some c) modelName).Errors.map fieldMessage =
      ((endpoints (relDef.Selectors.getD [])).filter
        (fun p => (match p.2.Model with
            | none => true
            | some m => m.Name == "" || m.Name == modelName) &&
          isMissing kinds modelName p.2)).map
        (fun p => (p.1, "component kind not found in model: " ++ p.2.Kind.getD "")) := by
  constructor
  · intro item m hmod h1 h2 field st
    have ho : otherModel item modelName = true := by
      simp [otherModel, hmod, h1, h2]
    rw [crossCheck_eq, isMissing_eq_false_of_otherModel ho]
    rfl
  · obtain ⟨es, e1, e2⟩ := validate_fetch_ok h hv hm hf
    have hnil : (phase1 relDef).Errors = [] := by
      rw [phase1_eq] at hv ⊢
      simpa using hv
    rw [e1]
    simp only [extend, hnil, List.nil_append]
    rw [e2]
    have hfun : (fun p : String × SelectorItem => isMissing kinds modelName p.2) =
        (fun p => (match p.2.Model with
            | none => true
            | some m => m.Name == "" || m.Name == modelName) &&
          isMissing kinds modelName p.2) := by
      funext p
      unfold isMissing
      cases p.2.Model <;> cases p.2.Kind <;> simp
    rw [hfun]
    rfl

set_option maxRecDepth 100000 in
/-- C11, instantiated on the example definition with the model name `kubernetes`: its
`Bucket` endpoint, of the model `aws-s3`, is passed over, and the only error is that of
the misspelt `Depolyment`. -/
theorem validate_other_model_exempt_witness :
    (exampleEnv listedOrder).Unmarshal exampleJSON = .ok exampleDefinition ∧
    (phase1 exampleDefinition).Valid = true ∧ "kubernetes" ≠ "" ∧
    GetComponentKinds ((exampleEnv listedOrder).rangeOrder 0) exampleClient "kubernetes" =
      .ok (["DaemonSet", "Deployment", "Pod", "Service"], 5) ∧
    (ValidateRelationship (exampleEnv listedOrder) exampleJSON (some exampleClient)
        "kubernetes").Errors.map fieldMessage =
      [("selectors.allow.from.kind", "component kind not found in model: Depolyment")] :=
  ⟨rfl, by decide, by decide, rfl,
    (validate_other_model_exempt (exampleEnv listedOrder) exampleJSON exampleDefinition
      exampleClient "kubernetes" ["DaemonSet", "Deployment", "Pod", "Service"] 5 rfl
      (by decide) (by decide) rfl).2⟩

set_option maxRecDepth 100000 in
/-- C11 fails as stated: the example definition belongs to the model `kubernetes` and its
`Bucket` endpoint names the model `aws-s3`; validated with the model-name argument
`aws-s3`, that endpoint is checked and reported. -/
theorem validate_other_model_reported :
    (exampleEnv listedOrder).Unmarshal exampleJSON = .ok exampleDefinition ∧
    exampleDefinition.Model.Name = "kubernetes" ∧
    (("selectors.allow.to.kind",
        ({ Kind := some "Bucket", Model := some { Name := "aws-s3" }, Patch := none } :
          SelectorItem)) ∈ endpoints (exampleDefinition.Selectors.getD [])) ∧
    "aws-s3" ≠ "" ∧ "aws-s3" ≠ exampleDefinition.Model.Name ∧
    (ValidateRelationship (exampleEnv listedOrder) exampleJSON (some exampleClient)
        "aws-s3").Errors.map fieldMessage =
      [("selectors.allow.from.kind", "component kind not found in model: Depolyment"),
       ("selectors.allow.to.kind", "component kind not found in model: Bucket")] :=
  ⟨rfl, rfl, by decide, by decide, by decide, by decide⟩

/-- C12: a definition that passes phase 1 and in which every endpoint declares a
non-empty model name different from the model-name argument is valid and has no errors,
for every client and every outcome of the fetch, whatever the fetched kinds are. -/
theorem validate_all_other_model (env : Env) (jsonStr : String)
    (relDef : RelationshipDefinition) (client : Option MesheryClient) (modelName : String)
    (h : env.Unmarshal jsonStr = .ok relDef)
    (hv : (phase1 relDef).Valid = true)
    (hall : ∀ p ∈ endpoints (relDef.Selectors.getD []),
      ∃ m, p.2.Model = some m ∧ m.Name ≠ "" ∧ m.Name ≠ modelName) :
    (ValidateRelationship env jsonStr client modelName).Valid = true ∧
    (ValidateRelationship env jsonStr client modelName).Errors = [] := by
  apply validate_nothing_missing h hv
  intro kinds p hp
  obtain ⟨m, h1, h2, h3⟩ := hall p hp
  apply isMissing_eq_false_of_otherModel
  simp [otherModel, h1, h2, h3]

set_option maxRecDepth 100000 in
/-- C12, instantiated on `crossModelJSON`, whose endpoints are of the models `aws-s3` and
`aws-sqs`, with the example client, whose kinds include neither `Bucket` nor `Queue`. -/
theorem validate_all_other_model_witness :
    (moreEnv listedOrder).Unmarshal crossModelJSON = .ok crossModelDefinition ∧
    (phase1 crossModelDefinition).Valid = true ∧
    (∀ p ∈ endpoints (crossModelDefinition.Selectors.getD []),
      ∃ m, p.2.Model = some m ∧ m.Name ≠ "" ∧ m.Name ≠ "kubernetes") ∧
    (ValidateRelationship (moreEnv listedOrder) crossModelJSON (some exampleClient)
      "kubernetes").Valid = true ∧
    (ValidateRelationship (moreEnv listedOrder) crossModelJSON (some exampleClient)
      "kubernetes").Errors = [] :=
  ⟨rfl, by decide, by decide,
    validate_all_other_model (moreEnv listedOrder) crossModelJSON crossModelDefinition
      (some exampleClient) "kubernetes" rfl (by decide) (by decide)⟩

/-- C13: a definition that passes phase 1 and in which every endpoint kind is absent,
empty or `*` is valid and has no errors, for every client, every outcome of the fetch
(so for every fetched kind set, the empty one included) and every model name. -/
theorem validate_all_wildcard (env : Env) (jsonStr : String)
    (relDef : RelationshipDefinition) (client : Option MesheryClient) (modelName : String)
    (h : env.Unmarshal jsonStr = .ok relDef)
    (hv : (phase1 relDef).Valid = true)
    (hall : ∀ p ∈ endpoints (relDef.Selectors.getD []),
      p.2.Kind = none ∨ p.2.Kind = some "" ∨ p.2.Kind = some "*") :
    (ValidateRelationship env jsonStr client modelName).Valid = true ∧
    (ValidateRelationship env jsonStr client modelName).Errors = [] := by
  apply validate_nothing_missing h hv
  intro kinds p hp
  exact isMissing_eq_false_of_kind (hall p hp)

set_option maxRecDepth 100000 in
/-- C13, instantiated on `wildcardJSON` and a client whose server knows three kinds. -/
theorem validate_all_wildcard_witness :
    (moreEnv listedOrder).Unmarshal wildcardJSON = .ok wildcardDefinition ∧
    (phase1 wildcardDefinition).Valid = true ∧
    (∀ p ∈ endpoints (wildcardDefinition.Selectors.getD []),
      p.2.Kind = none ∨ p.2.Kind = some "" ∨ p.2.Kind = some "*") ∧
    (ValidateRelationship (moreEnv listedOrder) wildcardJSON (some servicesClient)
      "kubernetes").Valid = true ∧
    (ValidateRelationship (moreEnv listedOrder) wildcardJSON (some servicesClient)
      "kubernetes").Errors = [] :=
  ⟨rfl, by decide, by decide,
    validate_all_wildcard (moreEnv listedOrder) wildcardJSON wildcardDefinition
      (some servicesClient) "kubernetes" rfl (by decide) (by decide)⟩

/-! ## The errors of phase 2 do not depend on the result they are appended to -/

theorem crossCheck_foldl_indep (ToLower : String → String) (modelName field : String)
    (items : List SelectorItem) (ks : KindSet) :
    ∃ (es : List ValidationError) (ks' : KindSet), ∀ r : ValidationResult,
      items.foldl (crossCheck ToLower modelName field) (r, ks) = (extend r es, ks') := by
  induction items generalizing ks with
  | nil => exact ⟨[], ks, fun r => by simp [extend_nil]⟩
  | cons item rest ih =>
    by_cases hm : isMissing ks.keys modelName item = true
    · obtain ⟨es, ks', hes⟩ := ih (ks.skip 3)
      refine ⟨{ Field := field
                Message := "component kind not found in model: " ++ item.Kind.getD ""
                Suggestion := findClosestKind ToLower (item.Kind.getD "") ks } :: es,
        ks', fun r => ?_⟩
      rw [List.foldl_cons, crossCheck_eq]
      simp only [hm, if_true]
      rw [hes, extend_extend]
      rfl
    · obtain ⟨es, ks', hes⟩ := ih ks
      refine ⟨es, ks', fun r => ?_⟩
      rw [List.foldl_cons, crossCheck_eq]
      simp only [hm]
      exact hes r

theorem crossCheckSelector_foldl_indep (ToLower : String → String) (modelName : String)
    (sels : List SelectorSetItem) (ks : KindSet) :
    ∃ (es : List ValidationError) (ks' : KindSet), ∀ r : ValidationResult,
      sels.foldl (crossCheckSelector ToLower modelName) (r, ks) = (extend r es, ks') := by
  induction sels generalizing ks with
  | nil => exact ⟨[], ks, fun r => by simp [extend_nil]⟩
  | cons sel rest ih =>
    obtain ⟨e1, k1, h1⟩ := crossCheck_foldl_indep ToLower modelName
      "selectors.allow.from.kind" sel.Allow.From ks
    obtain ⟨e2, k2, h2⟩ := crossCheck_foldl_indep ToLower modelName
      "selectors.allow.to.kind" sel.Allow.To k1
    obtain ⟨e3, k3, h3⟩ := ih k2
    refine ⟨e1 ++ (e2 ++ e3), k3, fun r => ?_⟩
    rw [List.foldl_cons]
    have hsel : crossCheckSelector ToLower modelName (r, ks) sel =
        (extend r (e1 ++ e2), k2) := by
      unfold crossCheckSelector
      simp only [h1, h2, extend_extend]
    rw [hsel, h3, extend_extend, List.append_assoc]

/-- Two definitions with the same errors of phase 1 and the same selectors get the same
`Valid` and the same errors. -/
theorem validate_errors_congr {env : Env} {jsonStr jsonStr' : String}
    {relDef relDef' : RelationshipDefinition}
    (h : env.Unmarshal jsonStr = .ok relDef) (h' : env.Unmarshal jsonStr' = .ok relDef')
    (hE : phase1Errors relDef' = phase1Errors relDef)
    (hS : relDef'.Selectors = relDef.Selectors)
    (client : Option MesheryClient) (modelName : String) :
    (ValidateRelationship env jsonStr' client modelName).Valid =
      (ValidateRelationship env jsonStr client modelName).Valid ∧
    (ValidateRelationship env jsonStr' client modelName).Errors =
      (ValidateRelationship env jsonStr client modelName).Errors := by
  have hV : (phase1 relDef').Valid = (phase1 relDef).Valid := by
    rw [phase1_eq, phase1_eq, hE]
  have hEr : (phase1 relDef').Errors = (phase1 relDef).Errors := by
    rw [phase1_eq, phase1_eq, hE]
  by_cases hs : client = none ∨ (phase1 relDef).Valid = false ∨ modelName = ""
  · have hs' : client = none ∨ (phase1 relDef').Valid = false ∨ modelName = "" := by
      rw [hV]
      exact hs
    rw [validate_skip h hs, validate_skip h' hs']
    exact ⟨hV, hEr⟩
  · simp only [not_or] at hs
    obtain ⟨hc, hv, hm⟩ := hs
    obtain ⟨c, rfl⟩ := Option.ne_none_iff_exists'.mp hc
    have hv1 : (phase1 relDef).Valid = true := by simpa using hv
    have hv1' : (phase1 relDef').Valid = true := by rw [hV]; exact hv1
    cases hf : GetComponentKinds (env.rangeOrder 0) c modelName with
    | error err =>
      rw [validate_fetch_error h hv1 hm hf, validate_fetch_error h' hv1' hm hf]
      exact ⟨hV, hEr⟩
    | ok r =>
      obtain ⟨kinds, total⟩ := r
      rw [validate_fetch_ok_eq h hv1 hm hf, validate_fetch_ok_eq h' hv1' hm hf, hS]
      obtain ⟨es, ks', hes⟩ := crossCheckSelector_foldl_indep env.ToLower modelName
        (relDef.Selectors.getD []) (makeKindSet env.rangeOrder kinds)
      rw [hes, hes]
      simp [extend, hV, hEr]

theorem phase1Errors_subType (relDef relDef' : RelationshipDefinition)
    (h1 : relDef'.SchemaVersion = relDef.SchemaVersion) (h2 : relDef'.Kind = relDef.Kind)
    (h3 : relDef'.Model = relDef.Model) (h4 : relDef'.Selectors = relDef.Selectors) :
    phase1Errors relDef' = phase1Errors relDef := by
  unfold phase1Errors schemaVersionErrors kindErrors modelNameErrors selectorCheckErrors
  rw [h1, h2, h3, h4]

/-- C18: on a definition that parses, the result has a warning on the field `subType` if
and only if `subType` is empty; and a definition that differs from it in `subType` only
gets the same `Valid` and the same errors. -/
theorem validate_subType (env : Env) (jsonStr : String) (relDef : RelationshipDefinition)
    (client : Option MesheryClient) (modelName : String)
    (h : env.Unmarshal jsonStr = .ok relDef) :
    ((∃ w ∈ (ValidateRelationship env jsonStr client modelName).Warnings,
        w.Field = "subType") ↔ relDef.SubType = "") ∧
    (∀ (jsonStr' : String) (relDef' : RelationshipDefinition),
      env.Unmarshal jsonStr' = .ok relDef' →
      relDef'.SchemaVersion = relDef.SchemaVersion → relDef'.Kind = relDef.Kind →
      relDef'.Model = relDef.Model → relDef'.Selectors = relDef.Selectors →
      (ValidateRelationship env jsonStr' client modelName).Valid =
        (ValidateRelationship env jsonStr client modelName).Valid ∧
      (ValidateRelationship env jsonStr' client modelName).Errors =
        (ValidateRelationship env jsonStr client modelName).Errors) := by
  constructor
  · obtain ⟨es, ws, hr, _, _, hws⟩ := validate_shape h client modelName
    rw [hr]
    constructor
    · rintro ⟨w, hw, hf⟩
      simp only [List.mem_append] at hw
      rcases hw with hw | hw
      · unfold phase1Warnings at hw
        split at hw
        · next hsub => simpa using hsub
        · simp at hw
      · have := hws w hw
        rw [hf] at this
        exact absurd this (by decide)
    · intro hsub
      refine ⟨{ Field := "subType"
                Message := "subType is empty; consider setting it for better classification"
                Suggestion := "" }, ?_, rfl⟩
      simp [phase1Warnings, hsub]
  · intro jsonStr' relDef' h' h1 h2 h3 h4
    exact validate_errors_congr h h' (phase1Errors_subType relDef relDef' h1 h2 h3 h4) h4
      client modelName

set_option maxRecDepth 100000 in
/-- C18, instantiated on the example text and on the same text with an empty `subType`,
with the example client: the example has no warning on `subType`, and the two results
have the same `Valid` and the same errors. -/
theorem validate_subType_witness :
    (moreEnv listedOrder).Unmarshal exampleJSON = .ok exampleDefinition ∧
    (moreEnv listedOrder).Unmarshal noSubTypeJSON = .ok noSubTypeDefinition ∧
    ((∃ w ∈ (ValidateRelationship (moreEnv listedOrder) exampleJSON (some exampleClient)
        "kubernetes").Warnings, w.Field = "subType") ↔ exampleDefinition.SubType = "") ∧
    ((ValidateRelationship (moreEnv listedOrder) noSubTypeJSON (some exampleClient)
        "kubernetes").Valid =
      (ValidateRelationship (moreEnv listedOrder) exampleJSON (some exampleClient)
        "kubernetes").Valid ∧
    (ValidateRelationship (moreEnv listedOrder) noSubTypeJSON (some exampleClient)
        "kubernetes").Errors =
      (ValidateRelationship (moreEnv listedOrder) exampleJSON (some exampleClient)
        "kubernetes").Errors) :=
  ⟨rfl, rfl,
    (validate_subType (moreEnv listedOrder) exampleJSON exampleDefinition
      (some exampleClient) "kubernetes" rfl).1,
    (validate_subType (moreEnv listedOrder) exampleJSON exampleDefinition
      (some exampleClient) "kubernetes" rfl).2 noSubTypeJSON noSubTypeDefinition
      rfl rfl rfl rfl rfl⟩

/-! ## The kinds that `GetComponentKinds` returns -/

theorem mapSet_nodup {m : List String} (k : String) (h : m.Nodup) : (mapSet m k).Nodup := by
  unfold mapSet
  split
  · exact h
  · next hk =>
    rw [List.nodup_append]
    refine ⟨h, List.nodup_singleton k, ?_⟩
    intro a ha hb
    simp only [List.mem_singleton] at hb
    exact hk (hb ▸ ha)

theorem seen_nodup (comps acc : List String) (h : acc.Nodup) :
    (comps.foldl (fun seen kind => if kind != "" then mapSet seen kind else seen)
      acc).Nodup := by
  induction comps generalizing acc with
  | nil => exact h
  | cons x rest ih =>
    rw [List.foldl_cons]
    apply ih
    split
    · exact mapSet_nodup x h
    · exact h

theorem mem_seen (comps acc : List String) (k : String) :
    k ∈ comps.foldl (fun seen kind => if kind != "" then mapSet seen kind else seen) acc ↔
      k ∈ acc ∨ (k ∈ comps ∧ k ≠ "") := by
  induction comps generalizing acc with
  | nil => simp
  | cons x rest ih =>
    rw [List.foldl_cons, ih]
    by_cases hx : x = ""
    · subst hx
      simp only [bne_self_eq_false, Bool.false_eq_true, if_false, List.mem_cons]
      constructor
      · rintro (h | ⟨h1, h2⟩)
        · exact Or.inl h
        · exact Or.inr ⟨Or.inr h1, h2⟩
      · rintro (h | ⟨h1 | h1, h2⟩)
        · exact Or.inl h
        · exact absurd h1 h2
        · exact Or.inr ⟨h1, h2⟩
    · have hb : (x != "") = true := by simpa using hx
      simp only [hb, if_true, List.mem_cons]
      have hms : k ∈ mapSet acc x ↔ k ∈ acc ∨ k = x := by
        unfold mapSet
        split
        · next hin =>
          constructor
          · exact Or.inl
          · rintro (h | h)
            · exact h
            · exact h ▸ hin
        · simp
      rw [hms]
      constructor
      · rintro ((h | h) | ⟨h1, h2⟩)
        · exact Or.inl h
        · exact Or.inr ⟨Or.inl h, h ▸ hx⟩
        · exact Or.inr ⟨Or.inr h1, h2⟩
      · rintro (h | ⟨h1 | h1, h2⟩)
        · exact Or.inl (Or.inl h)
        · exact Or.inl (Or.inr h1)
        · exact Or.inr ⟨h1, h2⟩

theorem sortStrings_strict {l : List String} (h : l.Nodup) :
    (sortStrings l).Pairwise stringLT := by
  have hs : (sortStrings l).Pairwise stringLE := List.sorted_insertionSort stringLE l
  have hn : (sortStrings l).Pairwise (fun a b => a ≠ b) :=
    (List.perm_insertionSort stringLE l).nodup_iff.mpr h
  refine (hs.and hn).imp ?_
  intro a b hab
  exact lt_of_le_of_ne hab.1 (fun e => hab.2 (String.ext e))

/-- C19: when the server answers with a response that decodes, `GetComponentKinds`
returns a list of kinds with the total count of the response; the list is in strictly
ascending order (so without duplicates), does not hold the empty string, and its members
are exactly the non-empty kinds of the components of the response. -/
theorem getComponentKinds_sorted (order : List String → List String) (c : MesheryClient)
    (modelName : String) (resp : componentsResponse)
    (horder : ∀ l, (order l).Perm l)
    (h : c.HTTPClient (c.BaseURL ++ "/api/meshmodels/models/" ++ modelName ++
      "/components?trim=true&pagesize=all") = .decoded resp) :
    ∃ kinds : List String,
      GetComponentKinds order c modelName = .ok (kinds, resp.TotalCount) ∧
      kinds.Pairwise stringLT ∧ kinds.Nodup ∧ "" ∉ kinds ∧
      ∀ k, k ∈ kinds ↔ (k ∈ resp.Components ∧ k ≠ "") := by
  have hn : (order (resp.Components.foldl
      (fun seen kind => if kind != "" then mapSet seen kind else seen) [])).Nodup :=
    (horder _).nodup_iff.mpr (seen_nodup resp.Components [] List.nodup_nil)
  have hmem : ∀ k, k ∈ sortStrings (order (resp.Components.foldl
      (fun seen kind => if kind != "" then mapSet seen kind else seen) [])) ↔
      (k ∈ resp.Components ∧ k ≠ "") := by
    intro k
    unfold sortStrings
    rw [(List.perm_insertionSort stringLE _).mem_iff, (horder _).mem_iff, mem_seen]
    simp
  refine ⟨sortStrings (order (resp.Components.foldl
      (fun seen kind => if kind != "" then mapSet seen kind else seen) [])), ?_,
    sortStrings_strict hn, ?_, ?_, hmem⟩
  · unfold GetComponentKinds
    simp only [h, foldl_append_singleton, List.nil_append]
  · exact (List.perm_insertionSort stringLE _).nodup_iff.mpr hn
  · intro he
    exact ((hmem "").mp he).2 rfl

/-- C19, instantiated on the example client, whose response lists `Service` twice and one
component without a kind. -/
theorem getComponentKinds_sorted_witness :
    (∀ l, (listedOrder 0 l).Perm l) ∧
    exampleClient.HTTPClient (exampleClient.BaseURL ++ "/api/meshmodels/models/" ++
      "kubernetes" ++ "/components?trim=true&pagesize=all") =
      .decoded { TotalCount := 5
                 Components := ["Service", "Deployment", "", "DaemonSet", "Service", "Pod"] } ∧
    GetComponentKinds (listedOrder 0) exampleClient "kubernetes" =
      .ok (["DaemonSet", "Deployment", "Pod", "Service"], 5) ∧
    ∃ kinds : List String,
      GetComponentKinds (listedOrder 0) exampleClient "kubernetes" = .ok (kinds, 5) ∧
      kinds.Pairwise stringLT ∧ kinds.Nodup ∧ "" ∉ kinds ∧
      ∀ k, k ∈ kinds ↔
        (k ∈ ["Service", "Deployment", "", "DaemonSet", "Service", "Pod"] ∧ k ≠ "") :=
  ⟨fun l => List.Perm.refl l, rfl, rfl,
    getComponentKinds_sorted (listedOrder 0) exampleClient "kubernetes"
      { TotalCount := 5
        Components := ["Service", "Deployment", "", "DaemonSet", "Service", "Pod"] }
      (fun l => List.Perm.refl l) rfl⟩

/-! ## The two-row table of `levenshtein` -/

theorem editDistance_nil_left (b : List Nat) : editDistance [] b = b.length := by
  simp [editDistance]

theorem editDistance_nil_right (a : List Nat) : editDistance a [] = a.length := by
  cases a <;> simp [editDistance]

theorem editDistance_cons_cons (x y : Nat) (a b : List Nat) :
    editDistance (x :: a) (y :: b) =
      min (editDistance (x :: a) b + 1)
        (min (editDistance a (y :: b) + 1) (editDistance a b + if x = y then 0 else 1)) := by
  rw [editDistance]

theorem editDistance_eq_unitCost (a b : List Nat) :
    editDistance a b = unitCostLevenshtein a b := by
  unfold unitCostLevenshtein
  induction a generalizing b with
  | nil =>
    rw [editDistance_nil_left]
    induction b with
    | nil => simp
    | cons y b ih => simp [← ih]; omega
  | cons x a iha =>
    induction b with
    | nil =>
      rw [editDistance_nil_right]
      clear iha
      induction a generalizing x with
      | nil => simp
      | cons x' a ih => 
        have := ih x'
        simp at this ⊢
        omega
    | cons y b ihb =>
      rw [editDistance_cons_cons, levenshtein_cons_cons, ← ihb, ← iha, ← iha]
      simp
      omega

theorem editDistance_snoc_snoc (a b : List Nat) (x y : Nat) :
    editDistance (a ++ [x]) (b ++ [y]) =
      min (editDistance (a ++ [x]) b + 1)
        (min (editDistance a (b ++ [y]) + 1) (editDistance a b + if x = y then 0 else 1)) := by
  induction a generalizing b with
  | nil =>
    induction b with
    | nil =>
      simp only [List.nil_append, editDistance_cons_cons, editDistance_nil_left,
        editDistance_nil_right, List.length_cons, List.length_nil]
    | cons y' b' ihb =>
      have l1 : editDistance ([] ++ [x]) ((y' :: b') ++ [y]) =
          min (editDistance ([] ++ [x]) (b' ++ [y]) + 1)
            (min (editDistance [] (y' :: (b' ++ [y])) + 1)
              (editDistance [] (b' ++ [y]) + if x = y' then 0 else 1)) :=
        editDistance_cons_cons x y' [] (b' ++ [y])
      have u1 : editDistance ([] ++ [x]) (y' :: b') =
          min (editDistance ([] ++ [x]) b' + 1)
            (min (editDistance [] (y' :: b') + 1)
              (editDistance [] b' + if x = y' then 0 else 1)) :=
        editDistance_cons_cons x y' [] b'
      rw [l1, ihb, u1]
      simp only [editDistance_nil_left, List.length_cons, List.length_append,
        List.length_nil, List.cons_append]
      omega
  | cons x' a' iha =>
    induction b with
    | nil =>
      have l1 : editDistance ((x' :: a') ++ [x]) ([] ++ [y]) =
          min (editDistance (x' :: (a' ++ [x])) [] + 1)
            (min (editDistance (a' ++ [x]) ([] ++ [y]) + 1)
              (editDistance (a' ++ [x]) [] + if x' = y then 0 else 1)) :=
        editDistance_cons_cons x' y (a' ++ [x]) []
      have u2 : editDistance (x' :: a') ([] ++ [y]) =
          min (editDistance (x' :: a') [] + 1)
            (min (editDistance a' ([] ++ [y]) + 1)
              (editDistance a' [] + if x' = y then 0 else 1)) :=
        editDistance_cons_cons x' y a' []
      rw [l1, iha [], u2]
      simp only [editDistance_nil_right, List.length_cons, List.length_append,
        List.length_nil, List.cons_append]
      omega
    | cons y' b' ihb =>
      have l1 : editDistance ((x' :: a') ++ [x]) ((y' :: b') ++ [y]) =
          min (editDistance ((x' :: a') ++ [x]) (b' ++ [y]) + 1)
            (min (editDistance (a' ++ [x]) ((y' :: b') ++ [y]) + 1)
              (editDistance (a' ++ [x]) (b' ++ [y]) + if x' = y' then 0 else 1)) :=
        editDistance_cons_cons x' y' (a' ++ [x]) (b' ++ [y])
      have u1 : editDistance ((x' :: a') ++ [x]) (y' :: b') =
          min (editDistance ((x' :: a') ++ [x]) b' + 1)
            (min (editDistance (a' ++ [x]) (y' :: b') + 1)
              (editDistance (a' ++ [x]) b' + if x' = y' then 0 else 1)) :=
        editDistance_cons_cons x' y' (a' ++ [x]) b'
      have u2 : editDistance (x' :: a') ((y' :: b') ++ [y]) =
          min (editDistance (x' :: a') (b' ++ [y]) + 1)
            (min (editDistance a' ((y' :: b') ++ [y]) + 1)
              (editDistance a' (b' ++ [y]) + if x' = y' then 0 else 1)) :=
        editDistance_cons_cons x' y' a' (b' ++ [y])
      have u3 : editDistance (x' :: a') (y' :: b') =
          min (editDistance (x' :: a') b' + 1)
            (min (editDistance a' (y' :: b') + 1)
              (editDistance a' b' + if x' = y' then 0 else 1)) :=
        editDistance_cons_cons x' y' a' b'
      rw [l1, ihb, iha (y' :: b'), iha b', u1, u2, u3]
      simp only [← Nat.add_min_add_right]
      ac_rfl

theorem getD_set_eq (l : List Nat) (i v : Nat) (h : i < l.length) :
    (l.set i v).getD i 0 = v := by
  simp [List.getD_eq_getElem?_getD, h]

theorem getD_set_ne (l : List Nat) {i j : Nat} (v : Nat) (h : i ≠ j) :
    (l.set i v).getD j 0 = l.getD j 0 := by
  simp [List.getD_eq_getElem?_getD, List.getElem?_set_ne h]

theorem take_succ_getD (a : List Nat) (i : Nat) (h : i < a.length) :
    a.take (i + 1) = a.take i ++ [a.getD i 0] := by
  rw [List.take_succ, List.getD_eq_getElem?_getD, List.getElem?_eq_getElem h]
  rfl

theorem tableEntry_zero_left (a b : List Nat) (j : Nat) (hj : j ≤ b.length) :
    tableEntry a b 0 j = j := by
  simp [tableEntry, editDistance_nil_left, hj]

theorem tableEntry_zero_right (a b : List Nat) (i : Nat) (hi : i ≤ a.length) :
    tableEntry a b i 0 = i := by
  simp [tableEntry, editDistance_nil_right, hi]

theorem tableEntry_succ_succ (a b : List Nat) (i j : Nat) (hi : i < a.length)
    (hj : j < b.length) :
    tableEntry a b (i + 1) (j + 1) =
      min (tableEntry a b (i + 1) j + 1)
        (min (tableEntry a b i (j + 1) + 1)
          (tableEntry a b i j + if a.getD i 0 = b.getD j 0 then 0 else 1)) := by
  unfold tableEntry
  rw [take_succ_getD a i hi, take_succ_getD b j hj]
  exact editDistance_snoc_snoc _ _ _ _

theorem levenshteinRow_upTo (a b : List Nat) (i : Nat) (hi : i < a.length)
    (prev curr : List Nat) (hc : curr.length = b.length + 1)
    (hprev : ∀ j, j ≤ b.length → prev.getD j 0 = tableEntry a b i j)
    (n : Nat) (hn : n ≤ b.length) :
    ((List.range n).foldl
      (fun curr j0 =>
        let j := j0 + 1
        let cost := if a.getD i 0 == b.getD (j - 1) 0 then 0 else 1
        curr.set j (min (curr.getD (j - 1) 0 + 1)
          (min (prev.getD j 0 + 1) (prev.getD (j - 1) 0 + cost))))
      (curr.set 0 (i + 1))).length = b.length + 1 ∧
    ∀ j, j ≤ n →
      ((List.range n).foldl
        (fun curr j0 =>
          let j := j0 + 1
          let cost := if a.getD i 0 == b.getD (j - 1) 0 then 0 else 1
          curr.set j (min (curr.getD (j - 1) 0 + 1)
            (min (prev.getD j 0 + 1) (prev.getD (j - 1) 0 + cost))))
        (curr.set 0 (i + 1))).getD j 0 = tableEntry a b (i + 1) j := by
  induction n with
  | zero =>
    refine ⟨by simp [hc], ?_⟩
    intro j hj
    have : j = 0 := by omega
    subst this
    rw [List.range_zero, List.foldl_nil, getD_set_eq _ _ _ (by omega),
      tableEntry_zero_right a b (i + 1) (by omega)]
  | succ n ih =>
    obtain ⟨hl, hv⟩ := ih (by omega)
    rw [List.range_succ, List.foldl_append, List.foldl_cons, List.foldl_nil]
    generalize (List.range n).foldl
      (fun curr j0 =>
        let j := j0 + 1
        let cost := if a.getD i 0 == b.getD (j - 1) 0 then 0 else 1
        curr.set j (min (curr.getD (j - 1) 0 + 1)
          (min (prev.getD j 0 + 1) (prev.getD (j - 1) 0 + cost))))
      (curr.set 0 (i + 1)) = r at hl hv
    simp only [Nat.add_sub_cancel]
    refine ⟨by simp [hl], ?_⟩
    intro j hj
    by_cases hjn : j = n + 1
    · subst hjn
      rw [getD_set_eq _ _ _ (by omega), hv n (le_refl n), hprev (n + 1) (by omega),
        hprev n (by omega), tableEntry_succ_succ a b i n hi (by omega)]
      simp only [beq_iff_eq]
    · rw [getD_set_ne _ _ (by omega), hv j (by omega)]

theorem levenshteinRow_spec (a b : List Nat) (i : Nat) (hi : i < a.length)
    (prev curr : List Nat) (hc : curr.length = b.length + 1)
    (hprev : ∀ j, j ≤ b.length → prev.getD j 0 = tableEntry a b i j) :
    (levenshteinRow (a.getD i 0) (i + 1) b prev curr).length = b.length + 1 ∧
    ∀ j, j ≤ b.length →
      (levenshteinRow (a.getD i 0) (i + 1) b prev curr).getD j 0 =
        tableEntry a b (i + 1) j :=
  levenshteinRow_upTo a b i hi prev curr hc hprev b.length (le_refl _)

theorem firstRow_upTo (lb n : Nat) (hn : n ≤ lb + 1) :
    ((List.range n).foldl (fun prev j => prev.set j j) (List.replicate (lb + 1) 0)).length =
      lb + 1 ∧
    ∀ j, j < n →
      ((List.range n).foldl (fun prev j => prev.set j j)
        (List.replicate (lb + 1) 0)).getD j 0 = j := by
  induction n with
  | zero => simp
  | succ n ih =>
    obtain ⟨hl, hv⟩ := ih (by omega)
    rw [List.range_succ, List.foldl_append, List.foldl_cons, List.foldl_nil]
    generalize (List.range n).foldl (fun prev j => prev.set j j)
      (List.replicate (lb + 1) 0) = r at hl hv
    refine ⟨by simp [hl], ?_⟩
    intro j hj
    by_cases hjn : j = n
    · subst hjn
      rw [getD_set_eq _ _ _ (by omega)]
    · rw [getD_set_ne _ _ (by omega), hv j (by omega)]

theorem rows_upTo (a b : List Nat) (init : List Nat × List Nat)
    (h1 : init.1.length = b.length + 1) (h2 : init.2.length = b.length + 1)
    (h0 : ∀ j, j ≤ b.length → init.1.getD j 0 = tableEntry a b 0 j)
    (n : Nat) (hn : n ≤ a.length) :
    ((List.range n).foldl
      (fun (rows : List Nat × List Nat) i0 =>
        let i := i0 + 1
        let curr := levenshteinRow (a.getD (i - 1) 0) i b rows.1 rows.2
        (curr, rows.1))
      init).1.length = b.length + 1 ∧
    ((List.range n).foldl
      (fun (rows : List Nat × List Nat) i0 =>
        let i := i0 + 1
        let curr := levenshteinRow (a.getD (i - 1) 0) i b rows.1 rows.2
        (curr, rows.1))
      init).2.length = b.length + 1 ∧
    ∀ j, j ≤ b.length →
      ((List.range n).foldl
        (fun (rows : List Nat × List Nat) i0 =>
          let i := i0 + 1
          let curr := levenshteinRow (a.getD (i - 1) 0) i b rows.1 rows.2
          (curr, rows.1))
        init).1.getD j 0 = tableEntry a b n j := by
  induction n with
  | zero => exact ⟨h1, h2, h0⟩
  | succ n ih =>
    obtain ⟨hl1, hl2, hv⟩ := ih (by omega)
    rw [List.range_succ, List.foldl_append, List.foldl_cons, List.foldl_nil]
    generalize (List.range n).foldl
      (fun (rows : List Nat × List Nat) i0 =>
        let i := i0 + 1
        let curr := levenshteinRow (a.getD (i - 1) 0) i b rows.1 rows.2
        (curr, rows.1))
      init = rows at hl1 hl2 hv
    simp only [Nat.add_sub_cancel]
    obtain ⟨r1, r2⟩ := levenshteinRow_spec a b n (by omega) rows.1 rows.2 hl2 hv
    exact ⟨r1, hl1, r2⟩

theorem levenshtein_eq_editDistance (a b : List Nat) :
    levenshtein a b = editDistance a b := by
  unfold levenshtein
  by_cases ha : a.length = 0
  · have : a = [] := List.length_eq_zero.mp ha
    subst this
    simp [editDistance_nil_left]
  · by_cases hb : b.length = 0
    · have : b = [] := List.length_eq_zero.mp hb
      subst this
      simp [ha, editDistance_nil_right]
    · simp only [beq_iff_eq, ha, hb, if_false]
      obtain ⟨hl, hv⟩ := firstRow_upTo b.length (b.length + 1) (le_refl _)
      have h0 : ∀ j, j ≤ b.length →
          ((List.range (b.length + 1)).foldl (fun prev j => prev.set j j)
            (List.replicate (b.length + 1) 0)).getD j 0 = tableEntry a b 0 j := by
        intro j hj
        rw [hv j (by omega), tableEntry_zero_left a b j hj]
      rw [(rows_upTo a b _ hl (by simp) h0 a.length (le_refl _)).2.2 b.length (le_refl _)]
      simp [tableEntry]

/-! ## The rules of the matcher -/

theorem distance_eq_editDistance (ToLower : String → String) (target k : String) :
    distance ToLower target k =
      editDistance (bytes (ToLower target)) (bytes (ToLower k)) :=
  levenshtein_eq_editDistance _ _

theorem qualifies_congr {ToLower : String → String} {target : String} {l1 l2 : List String}
    (h : ∀ k, k ∈ l1 ↔ k ∈ l2) (k : String) :
    Qualifies ToLower target l1 k ↔ Qualifies ToLower target l2 k := by
  unfold Qualifies
  simp only [h]

theorem findClosestKind_unique {ToLower : String → String} {target : String} {ks : KindSet}
    (hwf : ks.WellFormed) {l : List String} (hmem : ∀ k, k ∈ ks.keys ↔ k ∈ l) {k0 : String}
    (hq : Qualifies ToLower target l k0)
    (hu : ∀ k ∈ l, Qualifies ToLower target l k → k = k0) :
    findClosestKind ToLower target ks = k0 := by
  rcases findClosestKind_spec ToLower target ks hwf.2 with q | ⟨_, n⟩
  · have q' := (qualifies_congr hmem _).mp q
    exact hu _ q'.1 q'
  · exact absurd ((qualifies_congr hmem _).mpr hq) (n k0 ((hmem k0).mpr hq.1))

theorem findClosestKind_none {ToLower : String → String} {target : String} {ks : KindSet}
    (hwf : ks.WellFormed) {l : List String} (hmem : ∀ k, k ∈ ks.keys ↔ k ∈ l)
    (hn : ∀ k ∈ l, ¬ Qualifies ToLower target l k) :
    findClosestKind ToLower target ks = "" := by
  rcases findClosestKind_spec ToLower target ks hwf.2 with q | ⟨e, _⟩
  · have q' := (qualifies_congr hmem _).mp q
    exact absurd q' (hn _ q'.1)
  · exact e

theorem exists_least (f : String → Nat) (l : List String) (h : l ≠ []) :
    ∃ k ∈ l, ∀ k' ∈ l, f k ≤ f k' := by
  induction l with
  | nil => exact absurd rfl h
  | cons x rest ih =>
    by_cases hr : rest = []
    · subst hr
      exact ⟨x, List.mem_cons_self _ _, fun k' hk' => by
        simp only [List.mem_singleton] at hk'
        rw [hk']⟩
    · obtain ⟨k, hk, hmin⟩ := ih hr
      by_cases hx : f x ≤ f k
      · refine ⟨x, List.mem_cons_self _ _, fun k' hk' => ?_⟩
        rcases List.mem_cons.mp hk' with rfl | hk'
        · exact le_refl _
        · exact le_trans hx (hmin k' hk')
      · refine ⟨k, List.mem_cons_of_mem _ hk, fun k' hk' => ?_⟩
        rcases List.mem_cons.mp hk' with rfl | hk'
        · omega
        · exact hmin k' hk'

set_option maxRecDepth 100000 in
/-- C14: with the known kinds `Deployment`, `Service`, `StatefulSet`, in whatever order
the loops visit them, `findClosestKind` returns `Deployment` for the targets `deployment`,
`Depl` and `Depolyment` (which is at edit distance 2, under the threshold 6), and the
empty string for `Zzzzzzzzzz`. -/
theorem findClosestKind_examples (ks : KindSet) (hwf : ks.WellFormed)
    (hkeys : ks.keys.Perm ["Deployment", "Service", "StatefulSet"]) :
    findClosestKind asciiToLower "deployment" ks = "Deployment" ∧
    findClosestKind asciiToLower "Depl" ks = "Deployment" ∧
    findClosestKind asciiToLower "Depolyment" ks = "Deployment" ∧
    editDistance (bytes (asciiToLower "Depolyment")) (bytes (asciiToLower "Deployment")) = 2 ∧
    len "Depolyment" / 2 + 1 = 6 ∧
    findClosestKind asciiToLower "Zzzzzzzzzz" ks = "" := by
  have hmem : ∀ k, k ∈ ks.keys ↔ k ∈ ["Deployment", "Service", "StatefulSet"] :=
    fun k => hkeys.mem_iff
  refine ⟨?_, ?_, ?_, ?_, by decide, ?_⟩
  · exact findClosestKind_unique hwf hmem (by decide) (by decide)
  · exact findClosestKind_unique hwf hmem (by decide) (by decide)
  · exact findClosestKind_unique hwf hmem (by decide) (by decide)
  · rw [← levenshtein_eq_editDistance]
    decide
  · exact findClosestKind_none hwf hmem (by decide)

set_option maxRecDepth 100000 in
/-- C14, instantiated on the three kinds visited in the reverse of their listed order. -/
theorem findClosestKind_examples_witness :
    threeKinds.WellFormed ∧
    threeKinds.keys.Perm ["Deployment", "Service", "StatefulSet"] ∧
    findClosestKind asciiToLower "deployment" threeKinds = "Deployment" ∧
    findClosestKind asciiToLower "Depl" threeKinds = "Deployment" ∧
    findClosestKind asciiToLower "Depolyment" threeKinds = "Deployment" ∧
    editDistance (bytes (asciiToLower "Depolyment")) (bytes (asciiToLower "Deployment")) = 2 ∧
    len "Depolyment" / 2 + 1 = 6 ∧
    findClosestKind asciiToLower "Zzzzzzzzzz" threeKinds = "" :=
  ⟨⟨by decide, fun _ => List.reverse_perm _⟩, List.Perm.refl _,
    findClosestKind_examples threeKinds ⟨by decide, fun _ => List.reverse_perm _⟩
      (List.Perm.refl _)⟩

/-- C15: when some known kind has the lowercase form of the target, `findClosestKind`
returns a known kind with that lowercase form, whatever the other kinds and the order of
the loops are. -/
theorem findClosestKind_rule1_priority (ToLower : String → String) (target : String)
    (ks : KindSet) (hwf : ks.WellFormed)
    (hex : ∃ k ∈ ks.keys, ToLower k = ToLower target) :
    findClosestKind ToLower target ks ∈ ks.keys ∧
    ToLower (findClosestKind ToLower target ks) = ToLower target := by
  obtain ⟨k, hk, hkt⟩ := hex
  have hke : exactMatch ToLower target k = true := by simp [exactMatch, hkt]
  rcases findClosestKind_spec ToLower target ks hwf.2 with q | ⟨_, n⟩
  · refine ⟨q.1, ?_⟩
    rcases q.2 with q | q | q
    · simpa [exactMatch] using q
    · rw [q.1 k hk] at hke
      exact absurd hke Bool.false_ne_true
    · rw [q.1 k hk] at hke
      exact absurd hke Bool.false_ne_true
  · exact absurd ⟨hk, Or.inl hke⟩ (n k hk)

set_option maxRecDepth 100000 in
/-- C15, instantiated on the target `deployment` and the kinds `Deploy`, `Deployments`,
`Deployment`: the two kinds visited first match by prefix, the third one exactly. -/
theorem findClosestKind_rule1_priority_witness :
    deployKinds.WellFormed ∧
    (∃ k ∈ deployKinds.keys, asciiToLower k = asciiToLower "deployment") ∧
    findClosestKind asciiToLower "deployment" deployKinds = "Deployment" ∧
    findClosestKind asciiToLower "deployment" deployKinds ∈ deployKinds.keys ∧
    asciiToLower (findClosestKind asciiToLower "deployment" deployKinds) =
      asciiToLower "deployment" :=
  ⟨⟨by decide, fun _ => List.Perm.refl _⟩, by decide, by decide,
    findClosestKind_rule1_priority asciiToLower "deployment" deployKinds
      ⟨by decide, fun _ => List.Perm.refl _⟩ (by decide)⟩

/-- C16: when no known kind has the lowercase form of the target and some known kind is,
in lowercase, a prefix of the target or has the target as a prefix, `findClosestKind`
returns a known kind in that prefix relation, whatever the edit distances are. -/
theorem findClosestKind_rule2_priority (ToLower : String → String) (target : String)
    (ks : KindSet) (hwf : ks.WellFormed)
    (hno : ∀ k ∈ ks.keys, ToLower k ≠ ToLower target)
    (hex : ∃ k ∈ ks.keys, HasPrefix (ToLower k) (ToLower target) = true ∨
      HasPrefix (ToLower target) (ToLower k) = true) :
    findClosestKind ToLower target ks ∈ ks.keys ∧
    (HasPrefix (ToLower (findClosestKind ToLower target ks)) (ToLower target) = true ∨
      HasPrefix (ToLower target) (ToLower (findClosestKind ToLower target ks)) = true) := by
  obtain ⟨k, hk, hkp⟩ := hex
  have hkp' : prefixMatch ToLower target k = true := by
    simpa [prefixMatch] using hkp
  have hne : ∀ k' ∈ ks.keys, exactMatch ToLower target k' = false := by
    intro k' hk'
    simpa [exactMatch] using hno k' hk'
  rcases findClosestKind_spec ToLower target ks hwf.2 with q | ⟨_, n⟩
  · refine ⟨q.1, ?_⟩
    rcases q.2 with q2 | q2 | q2
    · rw [hne _ q.1] at q2
      exact absurd q2 Bool.false_ne_true
    · simpa [prefixMatch] using q2.2
    · rw [q2.2.1 k hk] at hkp'
      exact absurd hkp' Bool.false_ne_true
  · exact absurd ⟨hk, Or.inr (Or.inl ⟨hne, hkp'⟩)⟩ (n k hk)

set_option maxRecDepth 100000 in
/-- C16, instantiated on the target `Role` and the kinds `Node`, `RoleBinding`: `Node` is
nearer (distance 2 against 7) and is visited first, and `RoleBinding` is returned. -/
theorem findClosestKind_rule2_priority_witness :
    roleKinds.WellFormed ∧
    (∀ k ∈ roleKinds.keys, asciiToLower k ≠ asciiToLower "Role") ∧
    (∃ k ∈ roleKinds.keys, HasPrefix (asciiToLower k) (asciiToLower "Role") = true ∨
      HasPrefix (asciiToLower "Role") (asciiToLower k) = true) ∧
    distance asciiToLower "Role" "Node" = 2 ∧
    distance asciiToLower "Role" "RoleBinding" = 7 ∧
    findClosestKind asciiToLower "Role" roleKinds = "RoleBinding" ∧
    findClosestKind asciiToLower "Role" roleKinds ∈ roleKinds.keys ∧
    (HasPrefix (asciiToLower (findClosestKind asciiToLower "Role" roleKinds))
        (asciiToLower "Role") = true ∨
      HasPrefix (asciiToLower "Role")
        (asciiToLower (findClosestKind asciiToLower "Role" roleKinds)) = true) :=
  ⟨⟨by decide, fun _ => List.Perm.refl _⟩, by decide, by decide, by decide, by decide,
    by decide,
    findClosestKind_rule2_priority asciiToLower "Role" roleKinds
      ⟨by decide, fun _ => List.Perm.refl _⟩ (by decide) (by decide)⟩

/-- C17: when no known kind matches the target by rule 1 or by rule 2, take the edit
distance between the lowercase target and the lowercase kinds. If some known kind is
within `len(target)/2 + 1`, `findClosestKind` returns a known kind at the least distance,
which is within that bound; if every known kind is farther, or there is none, it returns
the empty string. -/
theorem findClosestKind_least_distance (ToLower : String → String) (target : String)
    (ks : KindSet) (hwf : ks.WellFormed)
    (hno1 : ∀ k ∈ ks.keys, ToLower k ≠ ToLower target)
    (hno2 : ∀ k ∈ ks.keys, HasPrefix (ToLower k) (ToLower target) = false ∧
      HasPrefix (ToLower target) (ToLower k) = false) :
    ((∃ k ∈ ks.keys, editDistance (bytes (ToLower target)) (bytes (ToLower k)) ≤
        len target / 2 + 1) →
      findClosestKind ToLower target ks ∈ ks.keys ∧
      (∀ k ∈ ks.keys,
        editDistance (bytes (ToLower target))
            (bytes (ToLower (findClosestKind ToLower target ks))) ≤
          editDistance (bytes (ToLower target)) (bytes (ToLower k))) ∧
      editDistance (bytes (ToLower target))
          (bytes (ToLower (findClosestKind ToLower target ks))) ≤ len target / 2 + 1) ∧
    ((∀ k ∈ ks.keys, len target / 2 + 1 <
        editDistance (bytes (ToLower target)) (bytes (ToLower k))) →
      findClosestKind ToLower target ks = "") := by
  have he : ∀ k' ∈ ks.keys, exactMatch ToLower target k' = false := by
    intro k' hk'
    simpa [exactMatch] using hno1 k' hk'
  have hp : ∀ k' ∈ ks.keys, prefixMatch ToLower target k' = false := by
    intro k' hk'
    simp [prefixMatch, (hno2 k' hk').1, (hno2 k' hk').2]
  simp only [← distance_eq_editDistance]
  rcases findClosestKind_spec ToLower target ks hwf.2 with q | ⟨e, n⟩
  · have q3 : (∀ k' ∈ ks.keys, distance ToLower target (findClosestKind ToLower target ks) ≤
          distance ToLower target k') ∧
        distance ToLower target (findClosestKind ToLower target ks) ≤ len target / 2 + 1 := by
      rcases q.2 with q2 | q2 | q2
      · rw [he _ q.1] at q2
        exact absurd q2 Bool.false_ne_true
      · rw [hp _ q.1] at q2
        exact absurd q2.2 Bool.false_ne_true
      · exact q2.2.2
    refine ⟨fun _ => ⟨q.1, q3.1, q3.2⟩, fun hfar => ?_⟩
    have := hfar _ q.1
    omega
  · refine ⟨fun hnear => ?_, fun _ => e⟩
    obtain ⟨k, hk, hkd⟩ := hnear
    obtain ⟨k0, hk0, hmin⟩ := exists_least (distance ToLower target) ks.keys
      (List.ne_nil_of_mem hk)
    have hq : Qualifies ToLower target ks.keys k0 :=
      ⟨hk0, Or.inr (Or.inr ⟨he, hp, hmin, le_trans (hmin k hk) hkd⟩)⟩
    exact absurd hq (n k0 hk0)

set_option maxRecDepth 100000 in
/-- C17, instantiated on the target `Depolyment` and the three kinds: `Deployment`, at
distance 2, is returned. -/
theorem findClosestKind_least_distance_witness :
    threeKinds.WellFormed ∧
    (∀ k ∈ threeKinds.keys, asciiToLower k ≠ asciiToLower "Depolyment") ∧
    (∀ k ∈ threeKinds.keys,
      HasPrefix (asciiToLower k) (asciiToLower "Depolyment") = false ∧
      HasPrefix (asciiToLower "Depolyment") (asciiToLower k) = false) ∧
    (∃ k ∈ threeKinds.keys, distance asciiToLower "Depolyment" k ≤
      len "Depolyment" / 2 + 1) ∧
    findClosestKind asciiToLower "Depolyment" threeKinds ∈ threeKinds.keys ∧
    findClosestKind asciiToLower "Depolyment" threeKinds = "Deployment" :=
  ⟨⟨by decide, fun _ => List.reverse_perm _⟩, by decide, by decide, by decide,
    ((findClosestKind_least_distance asciiToLower "Depolyment" threeKinds
      ⟨by decide, fun _ => List.reverse_perm _⟩ (by decide) (by decide)).1
      ⟨"Deployment", by decide, by
        rw [← distance_eq_editDistance]
        decide⟩).1,
    by decide⟩

/-- C20: for all sequences of bytes `a` and `b`, the function `levenshtein` of the source,
with its two rows swapped after every row, returns the standard Levenshtein distance
between `a` and `b`: the value of the usual recursive definition, which is also that of
Mathlib's distance with unit costs. In particular it returns the length of the other
sequence when one of them is empty. -/
theorem levenshtein_standard (a b : List Nat) :
    levenshtein a b = editDistance a b ∧
    levenshtein a b = unitCostLevenshtein a b ∧
    levenshtein [] b = b.length ∧
    levenshtein a [] = a.length := by
  refine ⟨levenshtein_eq_editDistance a b, ?_, ?_, ?_⟩
  · rw [levenshtein_eq_editDistance, editDistance_eq_unitCost]
  · rw [levenshtein_eq_editDistance, editDistance_nil_left]
  · rw [levenshtein_eq_editDistance, editDistance_nil_right]

/-- C21: for every target and every set of known kinds, whatever the order of the loops,
`findClosestKind` returns the empty string or one of the known kinds; when there is no
known kind it returns the empty string. -/
theorem findClosestKind_mem_or_empty (ToLower : String → String) (target : String)
    (ks : KindSet) (hwf : ks.WellFormed) :
    (findClosestKind ToLower target ks = "" ∨ findClosestKind ToLower target ks ∈ ks.keys) ∧
    (ks.keys = [] → findClosestKind ToLower target ks = "") := by
  rcases findClosestKind_spec ToLower target ks hwf.2 with q | ⟨e, _⟩
  · refine ⟨Or.inr q.1, fun hnil => ?_⟩
    have hmem := q.1
    rw [hnil] at hmem
    exact absurd hmem (List.not_mem_nil _)
  · exact ⟨Or.inl e, fun _ => e⟩

set_option maxRecDepth 100000 in
/-- C21, instantiated on the target `Depolyment` with the three kinds, where a known kind
is returned, and with no known kind, where the empty string is returned. -/
theorem findClosestKind_mem_or_empty_witness :
    (threeKinds.WellFormed ∧
      findClosestKind asciiToLower "Depolyment" threeKinds = "Deployment" ∧
      (findClosestKind asciiToLower "Depolyment" threeKinds = "" ∨
        findClosestKind asciiToLower "Depolyment" threeKinds ∈ threeKinds.keys)) ∧
    ((makeKindSet listedOrder []).WellFormed ∧ (makeKindSet listedOrder []).keys = [] ∧
      findClosestKind asciiToLower "Depolyment" (makeKindSet listedOrder []) = "") :=
  ⟨⟨⟨by decide, fun _ => List.reverse_perm _⟩, by decide,
      (findClosestKind_mem_or_empty asciiToLower "Depolyment" threeKinds
        ⟨by decide, fun _ => List.reverse_perm _⟩).1⟩,
    ⟨⟨by decide, fun _ => List.Perm.refl _⟩, rfl,
      (findClosestKind_mem_or_empty asciiToLower "Depolyment" (makeKindSet listedOrder [])
        ⟨by decide, fun _ => List.Perm.refl _⟩).2 rfl⟩⟩

/-! ## Two runs without ties -/

end Meshery
